import Mathlib

/-!
Verification of the terrain / projection core of the terraformWebGPU repository.

The TypeScript sources are shallowly embedded: JavaScript numbers are
idealized as elements of a linear ordered field (instantiated at `ℚ` where the
code only uses field operations and comparisons, and at `ℝ` where it uses
transcendental functions), fallible code returns `Option`, and array indexing
is modelled with explicit list lookups.
-/

namespace TerraformWebGPU

/-! ### terrain.ts: small helpers -/

/-- `clamp(value, min, max) = Math.max(min, Math.min(max, value))`. -/
def clamp {α : Type} [LinearOrder α] (value lo hi : α) : α :=
  max lo (min hi value)

/-- `smoothstep(edge0, edge1, x)` from terrain.ts. -/
def smoothstep {α : Type} [LinearOrderedField α] (edge0 edge1 x : α) : α :=
  let t := clamp ((x - edge0) / (edge1 - edge0)) 0 1
  t * t * (3 - 2 * t)

/-- RGB triple (the source type `Vec3`). -/
def Vec3 (α : Type) : Type := α × α × α

/-- `mix(a, b, t)` componentwise linear interpolation from terrain.ts. -/
def mix {α : Type} [LinearOrderedField α] (a b : Vec3 α) (t : α) : Vec3 α :=
  (a.1 + (b.1 - a.1) * t, a.2.1 + (b.2.1 - a.2.1) * t, a.2.2 + (b.2.2 - a.2.2) * t)

/-- The configuration record `TerrainColorConfig` from terrain.ts. -/
structure TerrainColorConfig (α : Type) where
  deepOcean : Vec3 α
  midOcean : Vec3 α
  shallowOcean : Vec3 α
  lowLand : Vec3 α
  highLand : Vec3 α
  rocky : Vec3 α
  snow : Vec3 α
  deepToMidStartOffsetFeet : α
  deepToMidEndOffsetFeet : α
  midToShallowStartOffsetFeet : α
  midToShallowEndOffsetFeet : α
  lowToHighEndOffsetFeet : α
  highToRockyEndOffsetFeet : α
  rockyToSnowStartOffsetFeet : α
  rockyToSnowEndOffsetFeet : α

/-- The default `TERRAIN_COLOR_CONFIG` constant from terrain.ts. -/
def TERRAIN_COLOR_CONFIG {α : Type} [LinearOrderedField α] : TerrainColorConfig α where
  deepOcean := (0.05, 0.15, 0.4)
  midOcean := (0.1, 0.3, 0.7)
  shallowOcean := (0.2, 0.5, 1.0)
  lowLand := (0.2, 0.36, 0.2)
  highLand := (0.3, 0.2, 0.1)
  rocky := (0.4, 0.4, 0.4)
  snow := (1.0, 1.0, 1.0)
  deepToMidStartOffsetFeet := -25000
  deepToMidEndOffsetFeet := -15000
  midToShallowStartOffsetFeet := -15000
  midToShallowEndOffsetFeet := -6000
  lowToHighEndOffsetFeet := 12000
  highToRockyEndOffsetFeet := 17000
  rockyToSnowStartOffsetFeet := 18000
  rockyToSnowEndOffsetFeet := 25000

/-- `colorFromElevationFeet(elevFeet, seaLevelFeet, cfg)` from terrain.ts. -/
def colorFromElevationFeet {α : Type} [LinearOrderedField α]
    (elevFeet seaLevelFeet : α) (cfg : TerrainColorConfig α) : Vec3 α :=
  if elevFeet < seaLevelFeet + cfg.deepToMidEndOffsetFeet then
    mix cfg.deepOcean cfg.midOcean
      (smoothstep (seaLevelFeet + cfg.deepToMidStartOffsetFeet)
        (seaLevelFeet + cfg.deepToMidEndOffsetFeet) elevFeet)
  else if elevFeet < seaLevelFeet + cfg.midToShallowEndOffsetFeet then
    mix cfg.midOcean cfg.shallowOcean
      (smoothstep (seaLevelFeet + cfg.midToShallowStartOffsetFeet)
        (seaLevelFeet + cfg.midToShallowEndOffsetFeet) elevFeet)
  else if elevFeet < seaLevelFeet then
    cfg.shallowOcean
  else if elevFeet < seaLevelFeet + cfg.lowToHighEndOffsetFeet then
    mix cfg.lowLand cfg.highLand
      (smoothstep seaLevelFeet (seaLevelFeet + cfg.lowToHighEndOffsetFeet) elevFeet)
  else if elevFeet < seaLevelFeet + cfg.highToRockyEndOffsetFeet then
    mix cfg.highLand cfg.rocky
      (smoothstep (seaLevelFeet + cfg.lowToHighEndOffsetFeet)
        (seaLevelFeet + cfg.highToRockyEndOffsetFeet) elevFeet)
  else
    mix cfg.rocky cfg.snow
      (smoothstep (seaLevelFeet + cfg.rockyToSnowStartOffsetFeet)
        (seaLevelFeet + cfg.rockyToSnowEndOffsetFeet) elevFeet)

/-! ### terrain.ts: rawToPercentile -/

/-- The `while (lo < hi)` binary-search loop inside `rawToPercentile`,
with explicit fuel (the loop runs at most `hi - lo` times since the gap
strictly shrinks, so fuel `n` is always enough). -/
def bsearchAux {α : Type} [LinearOrderedField α] (xs : List α) (raw : α) :
    ℕ → ℕ → ℕ → ℕ
  | 0, lo, _ => lo
  | fuel + 1, lo, hi =>
    if lo < hi then
      let mid := (lo + hi) / 2
      if xs.getD mid 0 < raw then bsearchAux xs raw fuel (mid + 1) hi
      else bsearchAux xs raw fuel lo mid
    else lo

/-- `rawToPercentile(sortedRaw, raw)` from terrain.ts. -/
def rawToPercentile {α : Type} [LinearOrderedField α] (xs : List α) (raw : α) : α :=
  let n := xs.length
  if n = 0 then 0.5
  else if raw ≤ xs.getD 0 0 then 0.5 / (n : α)
  else if xs.getD (n - 1) 0 ≤ raw then ((n : α) - 0.5) / (n : α)
  else
    let lo := bsearchAux xs raw n 0 n
    let idx := clamp lo 0 (n - 1)
    ((idx : α) + 0.5) / (n : α)

/-! ### simplex3d.ts: SimplexNoise3D -/

/-- The fixed gradient table `grad3` (12 entries). -/
def grad3 : List (ℤ × ℤ × ℤ) :=
  [(1, 1, 0), (-1, 1, 0), (1, -1, 0), (-1, -1, 0),
   (1, 0, 1), (-1, 0, 1), (1, 0, -1), (-1, 0, -1),
   (0, 1, 1), (0, -1, 1), (0, 1, -1), (0, -1, -1)]

/-- JS rounding toward zero, as used by the `%` operator. -/
def jsTrunc (q : ℚ) : ℤ := if q < 0 then -⌊-q⌋ else ⌊q⌋

/-- The JS remainder `x % y = x - y * trunc(x / y)` (sign follows the dividend). -/
def jsRem (x y : ℚ) : ℚ := x - y * (jsTrunc (x / y) : ℚ)

/-- The constructor's array `p` as a JS property map: `none` is `undefined`. -/
def pInit : ℤ → Option ℚ := fun i => if 0 ≤ i ∧ i < 256 then some (i : ℚ) else none

/-- Array store (JS assignment `p[i] = v`). -/
def pWrite (p : ℤ → Option ℚ) (i : ℤ) (v : Option ℚ) : ℤ → Option ℚ :=
  fun j => if j = i then v else p j

/-- One iteration of the constructor's shuffle at index `i`:
`n = Math.floor((seed = (seed*9301+49297) % 233280) / 233280 * (i+1))`,
then swap `p[i]` and `p[n]`. -/
def shuffleStep (st : (ℤ → Option ℚ) × ℚ) (i : ℕ) : (ℤ → Option ℚ) × ℚ :=
  let s := jsRem (st.2 * 9301 + 49297) 233280
  let n : ℤ := ⌊s / 233280 * ((i : ℚ) + 1)⌋
  let q := st.1 (i : ℤ)
  let p1 := pWrite st.1 (i : ℤ) (st.1 n)
  (pWrite p1 n q, s)

/-- The shuffled table `p`: the loop runs `i = 255` down to `1`. -/
def buildP (seed : ℚ) : ℤ → Option ℚ :=
  (((List.range 255).map (fun t => 255 - t)).foldl shuffleStep (pInit, seed)).1

/-- The doubled table: `perm[i] = p[i & 255]` for `i = 0..511`, `undefined` outside. -/
def permTable (seed : ℚ) (i : ℤ) : Option ℚ :=
  if 0 ≤ i ∧ i < 512 then buildP seed (i % 256) else none

/-- `perm[iiOff + perm[jjOff + perm[kkOff]]] % 12` with JS `undefined`/NaN
propagation: an undefined or non-integral index reads `undefined`. -/
def giChain (seed : ℚ) (iiOff jjOff kkOff : ℤ) : Option ℚ :=
  match permTable seed kkOff with
  | none => none
  | some v1 =>
    if v1.den = 1 then
      match permTable seed (jjOff + v1.num) with
      | none => none
      | some v2 =>
        if v2.den = 1 then
          match permTable seed (iiOff + v2.num) with
          | none => none
          | some v3 => some (jsRem v3 12)
        else none
    else none

/-- `grad3[gi]`: defined only for an integral index in range. -/
def gradLookup (gi : Option ℚ) : Option (ℤ × ℤ × ℤ) :=
  match gi with
  | none => none
  | some q => if q.den = 1 ∧ 0 ≤ q.num ∧ q.num < 12 then grad3[q.num.toNat]? else none

/-- Corner-ordering selection in `noise` (the nested comparisons on
`x0, y0, z0` choosing `(i1,j1,k1)` and `(i2,j2,k2)`). -/
def simplexCorners {α : Type} [LinearOrderedField α] (x0 y0 z0 : α) :
    (ℕ × ℕ × ℕ) × (ℕ × ℕ × ℕ) :=
  if y0 ≤ x0 then
    if z0 ≤ y0 then ((1, 0, 0), (1, 1, 0))
    else if z0 ≤ x0 then ((1, 0, 0), (1, 0, 1))
    else ((0, 0, 1), (1, 0, 1))
  else
    if y0 < z0 then ((0, 0, 1), (0, 1, 1))
    else if x0 < z0 then ((0, 1, 0), (0, 1, 1))
    else ((0, 1, 0), (1, 1, 0))

/-- `dot(g, x, y, z)` for a gradient table entry. -/
def gdot {α : Type} [LinearOrderedField α] (g : ℤ × ℤ × ℤ) (x y z : α) : α :=
  (g.1 : α) * x + (g.2.1 : α) * y + (g.2.2 : α) * z

/-- One corner: `t < 0 ? 0 : (t *= t) * t * dot(grad3[gi], x, y, z)`; when the
branch needs the gradient and the lookup was `undefined`, `dot` throws. -/
def cornerContrib {α : Type} [LinearOrderedField α] (t : α) (g : Option (ℤ × ℤ × ℤ))
    (x y z : α) : Option α :=
  if t < 0 then some 0
  else g.map (fun gv => t * t * (t * t) * gdot gv x y z)

/-- `SimplexNoise3D.noise(xin, yin, zin)` for a constructor seed `seed` (any
JS number, idealized as a rational); `none` is a thrown `TypeError`. -/
def noiseO {α : Type} [LinearOrderedField α] [FloorRing α] (seed : ℚ)
    (xin yin zin : α) : Option α := do
  let F3 : α := 1 / 3
  let G3 : α := 1 / 6
  let s := (xin + yin + zin) * F3
  let i : ℤ := ⌊xin + s⌋
  let j : ℤ := ⌊yin + s⌋
  let k : ℤ := ⌊zin + s⌋
  let t := ((i + j + k : ℤ) : α) * G3
  let x0 := xin - ((i : α) - t)
  let y0 := yin - ((j : α) - t)
  let z0 := zin - ((k : α) - t)
  let co := simplexCorners x0 y0 z0
  let i1 := co.1.1
  let j1 := co.1.2.1
  let k1 := co.1.2.2
  let i2 := co.2.1
  let j2 := co.2.2.1
  let k2 := co.2.2.2
  let x1 := x0 - (i1 : α) + G3
  let y1 := y0 - (j1 : α) + G3
  let z1 := z0 - (k1 : α) + G3
  let x2 := x0 - (i2 : α) + 2 * G3
  let y2 := y0 - (j2 : α) + 2 * G3
  let z2 := z0 - (k2 : α) + 2 * G3
  let x3 := x0 - 1 + 3 * G3
  let y3 := y0 - 1 + 3 * G3
  let z3 := z0 - 1 + 3 * G3
  let ii := i % 256
  let jj := j % 256
  let kk := k % 256
  let g0 := gradLookup (giChain seed ii jj kk)
  let g1 := gradLookup (giChain seed (ii + i1) (jj + j1) (kk + k1))
  let g2 := gradLookup (giChain seed (ii + i2) (jj + j2) (kk + k2))
  let g3 := gradLookup (giChain seed (ii + 1) (jj + 1) (kk + 1))
  let n0 ← cornerContrib (0.6 - x0 * x0 - y0 * y0 - z0 * z0) g0 x0 y0 z0
  let n1 ← cornerContrib (0.6 - x1 * x1 - y1 * y1 - z1 * z1) g1 x1 y1 z1
  let n2 ← cornerContrib (0.6 - x2 * x2 - y2 * y2 - z2 * z2) g2 x2 y2 z2
  let n3 ← cornerContrib (0.6 - x3 * x3 - y3 * y3 - z3 * z3) g3 x3 y3 z3
  pure (32 * (n0 + n1 + n2 + n3))

/-- Total wrapper for the noise value. -/
def noise {α : Type} [LinearOrderedField α] [FloorRing α] (seed : ℚ)
    (xin yin zin : α) : α :=
  (noiseO seed xin yin zin).getD 0


/-! ### terrain.ts: globe constants and the split-normal elevation map -/

/-- `HIGHEST_ELEVATION_LIMIT` (feet). -/
def HIGHEST_ELEVATION_LIMIT : ℝ := 48685

/-- `LOWEST_ELEVATION_LIMIT` (feet). -/
def LOWEST_ELEVATION_LIMIT : ℝ := -16404

/-- `BASE_ABYSSAL_FLOOR_ELEVATION` (feet). -/
def BASE_ABYSSAL_FLOOR_ELEVATION : ℝ := 0

/-- `STD_DEVS`. -/
def STD_DEVS : ℝ := 4

/-- Numerator polynomial of the Acklam tail branch (Horner form, source
coefficients `c1..c6`). -/
def acklamTailNum (q : ℝ) : ℝ :=
  ((((-0.00778489400243029 * q + -0.322396458041136) * q + -2.40075827716184) * q +
    -2.54973253934373) * q + 4.37466414146497) * q + 2.93816398269878

/-- Denominator polynomial of the Acklam tail branch (source `d1..d4`). -/
def acklamTailDen (q : ℝ) : ℝ :=
  (((0.00778469570904146 * q + 0.32246712907004) * q + 2.445134137143) * q +
    3.75440866190742) * q + 1

/-- Numerator polynomial of the Acklam central branch (source `a1..a6`). -/
def acklamCentralNum (r : ℝ) : ℝ :=
  ((((-39.6968302866538 * r + 220.946098424521) * r + -275.928510446969) * r +
    138.357751867269) * r + -30.6647980661472) * r + 2.50662827745924

/-- Denominator polynomial of the Acklam central branch (source `b1..b5`). -/
def acklamCentralDen (r : ℝ) : ℝ :=
  ((((-54.4760987982241 * r + 161.585836858041) * r + -155.698979859887) * r +
    66.8013118877197) * r + -13.2806815528857) * r + 1

/-- Derivative polynomial of `acklamCentralNum`. -/
noncomputable def acklamCentralNumD (r : ℝ) : ℝ :=
  (((((-198484151433269 : ℝ) / 1000000000000) * r + ((220946098424521 : ℝ) / 250000000000)) * r + ((-827785531340907 : ℝ) / 1000000000000)) * r + ((138357751867269 : ℝ) / 500000000000)) * r + ((-9582749395671 : ℝ) / 312500000000)

/-- Derivative polynomial of `acklamCentralDen`. -/
noncomputable def acklamCentralDenD (r : ℝ) : ℝ :=
  (((((-544760987982241 : ℝ) / 2000000000000) * r + ((161585836858041 : ℝ) / 250000000000)) * r + ((-467096939579661 : ℝ) / 1000000000000)) * r + ((668013118877197 : ℝ) / 5000000000000)) * r + ((-132806815528857 : ℝ) / 10000000000000)

/-- Derivative polynomial of `acklamTailNum`. -/
noncomputable def acklamTailNumD (q : ℝ) : ℝ :=
  (((((-778489400243029 : ℝ) / 20000000000000000) * q + ((-20149778627571 : ℝ) / 15625000000000)) * q + ((-90028435393569 : ℝ) / 12500000000000)) * q + ((-254973253934373 : ℝ) / 50000000000000)) * q + ((437466414146497 : ℝ) / 100000000000000)

/-- Derivative polynomial of `acklamTailDen`. -/
noncomputable def acklamTailDenD (q : ℝ) : ℝ :=
  ((((389234785452073 : ℝ) / 12500000000000000) * q + ((24185034680253 : ℝ) / 25000000000000)) * q + ((2445134137143 : ℝ) / 500000000000)) * q + ((187720433095371 : ℝ) / 50000000000000)

/-- Numerator of the derivative of the central rational approximation as a
function of `r = q ^ 2` (positive on the used range: the branch is strictly
increasing). -/
noncomputable def acklamCentralP (r : ℝ) : ℝ :=
  acklamCentralNum r * acklamCentralDen r +
    2 * r * (acklamCentralNumD r * acklamCentralDen r - acklamCentralNum r * acklamCentralDenD r)

/-- Numerator of the derivative of the tail rational approximation (negative
on the used range: the tail branch is strictly decreasing in `q`). -/
noncomputable def acklamTailW (q : ℝ) : ℝ :=
  acklamTailNumD q * acklamTailDen q - acklamTailNum q * acklamTailDenD q

/-- The tail-branch rational approximation value at `q`. -/
noncomputable def acklamTailRatio (q : ℝ) : ℝ := acklamTailNum q / acklamTailDen q

/-- The central-branch rational approximation value at `q = p - 0.5`. -/
noncomputable def acklamCentralRatio (q : ℝ) : ℝ :=
  acklamCentralNum (q * q) * q / acklamCentralDen (q * q)

/-- The branch arithmetic of `inverseNormalCDF` (everything after the domain
guard). -/
noncomputable def inverseNormalCDFCore (p : ℝ) : ℝ :=
  if p < 0.02425 then
    acklamTailRatio (Real.sqrt (-2 * Real.log p))
  else if 1 - 0.02425 < p then
    -(acklamTailRatio (Real.sqrt (-2 * Real.log (1 - p))))
  else
    acklamCentralRatio (p - 0.5)

/-- `inverseNormalCDF(p)` from terrain.ts; the thrown error for
`p <= 0 || p >= 1` is modelled as `none`. -/
noncomputable def inverseNormalCDF (p : ℝ) : Option ℝ :=
  if p ≤ 0 ∨ 1 ≤ p then none else some (inverseNormalCDFCore p)

/-- The total value computed by `percentileToElevationFeet(u, stdDevs)`
(pair `(elevFeet, zStd)`); the domain guard of the inverse CDF is bypassed
here and reinstated in `percentileToElevationFeet`. -/
noncomputable def elevPair (u stdDevs : ℝ) : ℝ × ℝ :=
  let sigmaLeftFeet := |LOWEST_ELEVATION_LIMIT| / stdDevs
  let sigmaRightFeet := HIGHEST_ELEVATION_LIMIT / stdDevs
  let w := sigmaLeftFeet / (sigmaLeftFeet + sigmaRightFeet)
  let eps : ℝ := 1e-6
  let uu := clamp u eps (1 - eps)
  if uu < w then
    let z := inverseNormalCDFCore (clamp (uu / (2 * w)) eps (0.5 - eps))
    let zc := clamp z (-stdDevs) stdDevs
    (clamp (BASE_ABYSSAL_FLOOR_ELEVATION + sigmaLeftFeet * zc)
      LOWEST_ELEVATION_LIMIT HIGHEST_ELEVATION_LIMIT, zc)
  else
    let z := inverseNormalCDFCore (clamp (0.5 + (uu - w) / (2 * (1 - w)))
      (0.5 + eps) (1 - eps))
    let zc := clamp z (-stdDevs) stdDevs
    (clamp (BASE_ABYSSAL_FLOOR_ELEVATION + sigmaRightFeet * zc)
      LOWEST_ELEVATION_LIMIT HIGHEST_ELEVATION_LIMIT, zc)

/-- `percentileToElevationFeet(u, stdDevs)` from terrain.ts, with the calls to
`inverseNormalCDF` kept fallible exactly as in the source. -/
noncomputable def percentileToElevationFeet (u stdDevs : ℝ) : Option (ℝ × ℝ) :=
  let sigmaLeftFeet := |LOWEST_ELEVATION_LIMIT| / stdDevs
  let sigmaRightFeet := HIGHEST_ELEVATION_LIMIT / stdDevs
  let w := sigmaLeftFeet / (sigmaLeftFeet + sigmaRightFeet)
  let eps : ℝ := 1e-6
  let uu := clamp u eps (1 - eps)
  if uu < w then do
    let z ← inverseNormalCDF (clamp (uu / (2 * w)) eps (0.5 - eps))
    let zc := clamp z (-stdDevs) stdDevs
    pure (clamp (BASE_ABYSSAL_FLOOR_ELEVATION + sigmaLeftFeet * zc)
      LOWEST_ELEVATION_LIMIT HIGHEST_ELEVATION_LIMIT, zc)
  else do
    let z ← inverseNormalCDF (clamp (0.5 + (uu - w) / (2 * (1 - w)))
      (0.5 + eps) (1 - eps))
    let zc := clamp z (-stdDevs) stdDevs
    pure (clamp (BASE_ABYSSAL_FLOOR_ELEVATION + sigmaRightFeet * zc)
      LOWEST_ELEVATION_LIMIT HIGHEST_ELEVATION_LIMIT, zc)

/-! ### winkelViewer.ts: createIcosphere -/

/-- The symmetric edge key `a < b ? a_b : b_a` used for the midpoint cache. -/
def midKey (a b : ℕ) : ℕ × ℕ := if a < b then (a, b) else (b, a)

/-- Association-list lookup modelling `Map.has`/`Map.get` on edge keys. -/
def assq : List ((ℕ × ℕ) × ℕ) → (ℕ × ℕ) → Option ℕ
  | [], _ => none
  | p :: rest, k => if k = p.1 then some p.2 else assq rest k

/-- The mutable state of `createIcosphere`: the growing vertex array and the
midpoint cache (`midCache`). -/
structure IcoState (V : Type) where
  verts : List V
  cache : List ((ℕ × ℕ) × ℕ)

/-- `getMid(a, b)` from createIcosphere: return the cached midpoint index for
the symmetric key, or append a new midpoint vertex and cache its index. -/
def getMid {V : Type} [Inhabited V] (mid : V → V → V) (st : IcoState V) (a b : ℕ) :
    IcoState V × ℕ :=
  match assq st.cache (midKey a b) with
  | some i => (st, i)
  | none =>
    (⟨st.verts ++ [mid (st.verts.getD a default) (st.verts.getD b default)],
      (midKey a b, st.verts.length) :: st.cache⟩, st.verts.length)

/-- One face of the subdivision loop body: three `getMid` calls and the four
child triangles `[a,ab,ca],[b,bc,ab],[c,ca,bc],[ab,bc,ca]`. -/
def subdivFace {V : Type} [Inhabited V] (mid : V → V → V) (st : IcoState V)
    (f : ℕ × ℕ × ℕ) : IcoState V × List (ℕ × ℕ × ℕ) :=
  let r1 := getMid mid st f.1 f.2.1
  let r2 := getMid mid r1.1 f.2.1 f.2.2
  let r3 := getMid mid r2.1 f.2.2 f.1
  (r3.1, [(f.1, r1.2, r3.2), (f.2.1, r2.2, r1.2), (f.2.2, r3.2, r2.2),
    (r1.2, r2.2, r3.2)])

/-- One subdivision pass: fold `subdivFace` over the current face list,
accumulating the `newFaces` array. -/
def subdivPass {V : Type} [Inhabited V] (mid : V → V → V) (st : IcoState V)
    (faces : List (ℕ × ℕ × ℕ)) : IcoState V × List (ℕ × ℕ × ℕ) :=
  faces.foldl (fun acc f =>
    let r := subdivFace mid acc.1 f
    (r.1, acc.2 ++ r.2)) (st, [])

/-- The 20 faces of the base icosahedron, exactly as listed in the source. -/
def icoFaces0 : List (ℕ × ℕ × ℕ) :=
  [(0, 11, 5), (0, 5, 1), (0, 1, 7), (0, 7, 10), (0, 10, 11),
   (1, 5, 9), (5, 11, 4), (11, 10, 2), (10, 7, 6), (7, 1, 8),
   (3, 9, 4), (3, 4, 2), (3, 2, 6), (3, 6, 8), (3, 8, 9),
   (4, 9, 5), (2, 4, 11), (6, 2, 10), (8, 6, 7), (9, 8, 1)]

/-- The subdivision loop of `createIcosphere`, parametric in the vertex type
and midpoint operation (the cache persists across passes, as in the source). -/
def icoIter {V : Type} [Inhabited V] (mid : V → V → V) (v0 : List V) :
    ℕ → IcoState V × List (ℕ × ℕ × ℕ)
  | 0 => (⟨v0, []⟩, icoFaces0)
  | s + 1 => subdivPass mid (icoIter mid v0 s).1 (icoIter mid v0 s).2

/-- The purely combinatorial part of the icosphere state: vertex count and
midpoint cache.  The control flow of `createIcosphere` depends only on this. -/
structure IcoSkel where
  nVerts : ℕ
  cache : List ((ℕ × ℕ) × ℕ)

/-- Skeleton of `getMid`. -/
def getMidIdx (sk : IcoSkel) (a b : ℕ) : IcoSkel × ℕ :=
  match assq sk.cache (midKey a b) with
  | some i => (sk, i)
  | none => (⟨sk.nVerts + 1, (midKey a b, sk.nVerts) :: sk.cache⟩, sk.nVerts)

/-- Skeleton of `subdivFace`. -/
def subdivFaceIdx (sk : IcoSkel) (f : ℕ × ℕ × ℕ) : IcoSkel × List (ℕ × ℕ × ℕ) :=
  let r1 := getMidIdx sk f.1 f.2.1
  let r2 := getMidIdx r1.1 f.2.1 f.2.2
  let r3 := getMidIdx r2.1 f.2.2 f.1
  (r3.1, [(f.1, r1.2, r3.2), (f.2.1, r2.2, r1.2), (f.2.2, r3.2, r2.2),
    (r1.2, r2.2, r3.2)])

/-- Skeleton of `subdivPass`. -/
def subdivPassIdx (sk : IcoSkel) (faces : List (ℕ × ℕ × ℕ)) :
    IcoSkel × List (ℕ × ℕ × ℕ) :=
  faces.foldl (fun acc f =>
    let r := subdivFaceIdx acc.1 f
    (r.1, acc.2 ++ r.2)) (sk, [])

/-- Skeleton of `icoIter`, starting from the 12 icosahedron vertices. -/
def icoSkelIter : ℕ → IcoSkel × List (ℕ × ℕ × ℕ)
  | 0 => (⟨12, []⟩, icoFaces0)
  | s + 1 => subdivPassIdx (icoSkelIter s).1 (icoSkelIter s).2

/-- Projection from a full icosphere state to its skeleton. -/
def skelOf {V : Type} (st : IcoState V) : IcoSkel := ⟨st.verts.length, st.cache⟩

/-- The three symmetric edge keys of a face. -/
def faceEdges (f : ℕ × ℕ × ℕ) : List (ℕ × ℕ) :=
  [midKey f.1 f.2.1, midKey f.2.1 f.2.2, midKey f.2.2 f.1]

/-- All edge keys of a face list, with multiplicity. -/
def edgeList (faces : List (ℕ × ℕ × ℕ)) : List (ℕ × ℕ) := faces.flatMap faceEdges

/-- The vertex set of a face. -/
def faceSet (f : ℕ × ℕ × ℕ) : Finset ℕ := {f.1, f.2.1, f.2.2}

/-- The endpoint set of an edge key. -/
def edgeSetOf (k : ℕ × ℕ) : Finset ℕ := {k.1, k.2}

/-- Midpoint-index assignment read off a cache. -/
def mFn (c : List ((ℕ × ℕ) × ℕ)) (k : ℕ × ℕ) : ℕ := (assq c k).getD 0

/-- The four child triangles of a face under a midpoint assignment `m`. -/
def childFaces (f : ℕ × ℕ × ℕ) (m : ℕ × ℕ → ℕ) : List (ℕ × ℕ × ℕ) :=
  [(f.1, m (midKey f.1 f.2.1), m (midKey f.2.2 f.1)),
   (f.2.1, m (midKey f.2.1 f.2.2), m (midKey f.1 f.2.1)),
   (f.2.2, m (midKey f.2.2 f.1), m (midKey f.2.1 f.2.2)),
   (m (midKey f.1 f.2.1), m (midKey f.2.1 f.2.2), m (midKey f.2.2 f.1))]

/-- The well-formedness invariant carried through the subdivision passes. -/
structure IcoInv (sk : IcoSkel) (faces : List (ℕ × ℕ × ℕ)) : Prop where
  fbound : ∀ f ∈ faces, f.1 < sk.nVerts ∧ f.2.1 < sk.nVerts ∧ f.2.2 < sk.nVerts
  fdist : ∀ f ∈ faces, f.1 ≠ f.2.1 ∧ f.2.1 ≠ f.2.2 ∧ f.2.2 ≠ f.1
  ckeys : ∀ p ∈ sk.cache, p.1.1 < p.1.2 ∧ p.1.2 < sk.nVerts
  ckeys_nd : (sk.cache.map Prod.fst).Nodup
  cvals_nd : (sk.cache.map Prod.snd).Nodup
  cvals_lt : ∀ p ∈ sk.cache, p.2 < sk.nVerts
  fresh : ∀ f ∈ faces, ∀ k ∈ faceEdges f, assq sk.cache k = none
  count2 : ∀ k ∈ edgeList faces, (edgeList faces).count k = 2
  fsets : (faces.map faceSet).Nodup

/-- Mid-pass description of the cache relative to the pass's starting state:
the new entries sit on top of the old cache, their keys are exactly `S`, and
their values enumerate fresh vertex indices. -/
def CacheOK (sk0 : IcoSkel) (S : Finset (ℕ × ℕ)) (sk : IcoSkel) : Prop :=
  ∃ newE : List ((ℕ × ℕ) × ℕ),
    sk.cache = newE ++ sk0.cache ∧
    sk.nVerts = sk0.nVerts + newE.length ∧
    (newE.map Prod.fst).Nodup ∧
    (newE.map Prod.fst).toFinset = S ∧
    (newE.map Prod.snd).Nodup ∧
    (∀ p ∈ newE, sk0.nVerts ≤ p.2 ∧ p.2 < sk.nVerts) ∧
    (∀ p ∈ newE, p.1.1 < p.1.2 ∧ p.1.2 < sk0.nVerts)

/-- The golden ratio `t = (1 + sqrt 5)/2`. -/
noncomputable def icoT : ℝ := (1 + Real.sqrt 5) / 2

/-- Normalization to the unit sphere via `Math.hypot`. -/
noncomputable def icoNormalize (v : ℝ × ℝ × ℝ) : ℝ × ℝ × ℝ :=
  let l := Real.sqrt (v.1 ^ 2 + v.2.1 ^ 2 + v.2.2 ^ 2)
  (v.1 / l, v.2.1 / l, v.2.2 / l)

/-- The 12 normalized icosahedron vertices. -/
noncomputable def icoBaseVerts : List (ℝ × ℝ × ℝ) :=
  ([(-1, icoT, 0), (1, icoT, 0), (-1, -icoT, 0), (1, -icoT, 0),
    (0, -1, icoT), (0, 1, icoT), (0, -1, -icoT), (0, 1, -icoT),
    (icoT, 0, -1), (icoT, 0, 1), (-icoT, 0, -1), (-icoT, 0, 1)] :
    List (ℝ × ℝ × ℝ)).map icoNormalize

/-- The normalized edge midpoint used by `getMid`. -/
noncomputable def icoMid (p q : ℝ × ℝ × ℝ) : ℝ × ℝ × ℝ :=
  icoNormalize ((p.1 + q.1) / 2, (p.2.1 + q.2.1) / 2, (p.2.2 + q.2.2) / 2)

/-- `createIcosphere(subdivisions, baseRadius, VISUALIZATION_SCALE)` without an
elevation function (as called by `buildRawDistribution`/`buildTerrainMesh`):
flat `[x,y,z,elev]` vertex array with `elev = 0` and flat index array. -/
noncomputable def createIcosphere (subdivisions : ℕ) (baseRadius VIS : ℝ) :
    List ℝ × List ℕ :=
  let r := icoIter icoMid icoBaseVerts subdivisions
  (r.1.verts.flatMap (fun v =>
      [v.1 * ((baseRadius + 0) * VIS), v.2.1 * ((baseRadius + 0) * VIS),
       v.2.2 * ((baseRadius + 0) * VIS), 0]),
   r.2.flatMap (fun f => [f.1, f.2.1, f.2.2]))

/-! ### terrain.ts: buildTerrainMesh ocean statistics -/

/-- `vertexCount = unitMesh.vertices.length / 4` in `buildTerrainMesh`. -/
noncomputable def buildTerrainN (subdivisions : ℕ) : ℕ :=
  (createIcosphere subdivisions 1 1).1.length / 4

/-- `seaLevelFeet = percentileToElevationFeet(oceanSAFraction, STD_DEVS).elevFeet`. -/
noncomputable def seaLevelFeetModel (f : ℝ) : ℝ := (elevPair f STD_DEVS).1

/-- The `oceanCount` statistic of `buildTerrainMesh`: vertex `i` receives the
percentile `(rank + 0.5)/N` where `rank = order⁻¹(i)` is its position in the
sort order, and is counted as ocean when its elevation is strictly below sea
level.  The sort is modelled as an arbitrary permutation `order`. -/
noncomputable def oceanCountModel (N : ℕ) (order : Equiv.Perm (Fin N)) (f : ℝ) : ℕ :=
  @Finset.card (Fin N) (@Finset.filter (Fin N)
    (fun i => (elevPair (((order.symm i : ℕ) + 0.5) / (N : ℝ)) STD_DEVS).1 <
      seaLevelFeetModel f) (Classical.decPred _) Finset.univ)

/-- `stats.oceanFracActual = vertexCount > 0 ? oceanCount / vertexCount : 0`. -/
noncomputable def oceanFracActualModel (N : ℕ) (order : Equiv.Perm (Fin N)) (f : ℝ) : ℝ :=
  if 0 < N then (oceanCountModel N order f : ℝ) / (N : ℝ) else 0

/-- Mid-pass invariant: the cache satisfies `CacheOK` for exactly the edges of
the processed prefix `P`, and the accumulated `newFaces` are the children of
`P` under the midpoint assignment read off the current cache. -/
def PassMid (sk0 : IcoSkel) (P : List (ℕ × ℕ × ℕ)) (sk : IcoSkel)
    (acc : List (ℕ × ℕ × ℕ)) : Prop :=
  CacheOK sk0 (edgeList P).toFinset sk ∧
  acc = P.flatMap (fun f => childFaces f (mFn sk.cache))

/-! ### Supporting lemmas -/

theorem foldl_inv {β σ : Type} (l : List β) (f : σ → β → σ) (inv : σ → Prop)
    (hstep : ∀ s b, inv s → inv (f s b)) : ∀ s, inv s → inv (l.foldl f s) := by
  induction l with
  | nil => intro s hs; exact hs
  | cons b l ih => intro s hs; exact ih _ (hstep s b hs)

theorem foldl_inv_mem {β σ : Type} (l : List β) (f : σ → β → σ) (inv : σ → Prop)
    (hstep : ∀ st b, b ∈ l → inv st → inv (f st b)) :
    ∀ init, inv init → inv (l.foldl f init) := by
  induction l with
  | nil => exact fun init h0 => h0
  | cons b rest ih =>
    intro init h0
    exact ih (fun st c hc hi => hstep st c (List.mem_cons_of_mem b hc) hi)
      (f init b) (hstep init b (List.mem_cons_self b rest) h0)

theorem jsTrunc_of_nonneg {q : ℚ} (h : 0 ≤ q) : jsTrunc q = ⌊q⌋ := by
  unfold jsTrunc
  rw [if_neg (not_lt.mpr h)]

theorem jsRem_nonneg_bounds {x y : ℚ} (hx : 0 ≤ x) (hy : 0 < y) :
    0 ≤ jsRem x y ∧ jsRem x y < y := by
  unfold jsRem
  rw [jsTrunc_of_nonneg (div_nonneg hx (le_of_lt hy))]
  have h1 := Int.floor_le (x / y)
  have h2 := Int.lt_floor_add_one (x / y)
  have h3 : y * (x / y) = x := by field_simp
  constructor
  · nlinarith [mul_le_mul_of_nonneg_left h1 (le_of_lt hy)]
  · nlinarith [mul_lt_mul_of_pos_left h2 hy]

theorem jsRem_neg_eq {x y : ℚ} (hx : x < 0) (hy : 0 < y) :
    jsRem x y = -(jsRem (-x) y) := by
  have hxy : x / y < 0 := div_neg_of_neg_of_pos hx hy
  have hnn : ¬ (-x) / y < 0 := not_lt.mpr (le_of_lt (div_pos (by linarith) hy))
  unfold jsRem jsTrunc
  rw [if_pos hxy, if_neg hnn, ← neg_div]
  push_cast
  ring

theorem jsRem_lt_of_pos {x y : ℚ} (hy : 0 < y) : jsRem x y < y := by
  rcases le_or_lt 0 x with hx | hx
  · exact (jsRem_nonneg_bounds hx hy).2
  · rw [jsRem_neg_eq hx hy]
    have := (jsRem_nonneg_bounds (show (0:ℚ) ≤ -x by linarith) hy).1
    linarith

theorem rat_num_cast_of_den_one {q : ℚ} (h : q.den = 1) : ((q.num : ℚ)) = q := by
  conv_rhs => rw [← Rat.num_div_den q]
  rw [h]
  simp

/-- Invariant for the shuffled array: every slot `0..255` holds an integer in
`[0, 256)`. -/
theorem pInit_good : ∀ j : ℤ, 0 ≤ j → j < 256 →
    ∃ v : ℚ, pInit j = some v ∧ v.den = 1 ∧ 0 ≤ v.num ∧ v.num < 256 := by
  intro j h1 h2
  refine ⟨(j : ℚ), ?_, Rat.den_intCast j, ?_, ?_⟩
  · unfold pInit
    rw [if_pos ⟨h1, h2⟩]
  · rw [Rat.num_intCast]
    exact h1
  · rw [Rat.num_intCast]
    exact h2

theorem shuffleStep_good {st : (ℤ → Option ℚ) × ℚ} {i : ℕ}
    (hp : ∀ j : ℤ, 0 ≤ j → j < 256 →
      ∃ v : ℚ, st.1 j = some v ∧ v.den = 1 ∧ 0 ≤ v.num ∧ v.num < 256)
    (hs : 0 ≤ st.2) (hi : i < 256) :
    (∀ j : ℤ, 0 ≤ j → j < 256 →
      ∃ v : ℚ, (shuffleStep st i).1 j = some v ∧ v.den = 1 ∧ 0 ≤ v.num ∧ v.num < 256) ∧
    0 ≤ (shuffleStep st i).2 := by
  have hb := jsRem_nonneg_bounds (show (0:ℚ) ≤ st.2 * 9301 + 49297 by nlinarith)
    (show (0:ℚ) < 233280 by norm_num)
  unfold shuffleStep
  dsimp only
  set s := jsRem (st.2 * 9301 + 49297) 233280 with hsdef
  set n : ℤ := ⌊s / 233280 * ((i : ℚ) + 1)⌋ with hndef
  have hn0 : 0 ≤ n := by
    rw [hndef]
    apply Int.floor_nonneg.mpr
    have hq : (0:ℚ) ≤ s / 233280 := div_nonneg hb.1 (by norm_num)
    positivity
  have hn256 : n < 256 := by
    rw [hndef]
    have h1 : s / 233280 < 1 := by
      rw [div_lt_one (by norm_num)]
      exact hb.2
    have hq : (0:ℚ) ≤ s / 233280 := div_nonneg hb.1 (by norm_num)
    have h2 : s / 233280 * ((i : ℚ) + 1) < (i : ℚ) + 1 := by nlinarith
    have h3 : ⌊s / 233280 * ((i : ℚ) + 1)⌋ < (i : ℤ) + 1 := by
      apply Int.floor_lt.mpr
      push_cast
      exact h2
    omega
  constructor
  · intro j hj1 hj2
    unfold pWrite
    by_cases hjn : j = n
    · rw [if_pos hjn]
      exact hp (i : ℤ) (by positivity) (by exact_mod_cast hi)
    · rw [if_neg hjn]
      by_cases hji : j = (i : ℤ)
      · rw [if_pos hji]
        exact hp n hn0 hn256
      · rw [if_neg hji]
        exact hp j hj1 hj2
  · exact hb.1

theorem buildP_good {seed : ℚ} (hs : 0 ≤ seed) : ∀ j : ℤ, 0 ≤ j → j < 256 →
    ∃ v : ℚ, buildP seed j = some v ∧ v.den = 1 ∧ 0 ≤ v.num ∧ v.num < 256 := by
  have h := foldl_inv_mem ((List.range 255).map (fun t => 255 - t)) shuffleStep
    (fun st => (∀ j : ℤ, 0 ≤ j → j < 256 →
      ∃ v : ℚ, st.1 j = some v ∧ v.den = 1 ∧ 0 ≤ v.num ∧ v.num < 256) ∧ 0 ≤ st.2)
    ?_ (pInit, seed) ⟨pInit_good, hs⟩
  · exact h.1
  · intro st b hbmem hinv
    have hb255 : b < 256 := by
      obtain ⟨t, ht, hteq⟩ := List.mem_map.mp hbmem
      omega
    exact shuffleStep_good hinv.1 hinv.2 hb255

theorem permTable_good {seed : ℚ} (hs : 0 ≤ seed) (i : ℤ) (h1 : 0 ≤ i) (h2 : i < 512) :
    ∃ v : ℚ, permTable seed i = some v ∧ v.den = 1 ∧ 0 ≤ v.num ∧ v.num < 256 := by
  unfold permTable
  rw [if_pos ⟨h1, h2⟩]
  exact buildP_good hs (i % 256) (Int.emod_nonneg i (by norm_num))
    (Int.emod_lt_of_pos i (by norm_num))

theorem jsRem_twelve_int {v : ℚ} (hden : v.den = 1) (hnum : 0 ≤ v.num) :
    (jsRem v 12).den = 1 ∧ 0 ≤ (jsRem v 12).num ∧ (jsRem v 12).num < 12 := by
  have hv : ((v.num : ℚ)) = v := rat_num_cast_of_den_one hden
  have hv0 : (0:ℚ) ≤ v := by
    rw [← hv]
    exact_mod_cast hnum
  have hb := jsRem_nonneg_bounds hv0 (show (0:ℚ) < 12 by norm_num)
  have he : jsRem v 12 = ((v.num - 12 * ⌊v / 12⌋ : ℤ) : ℚ) := by
    unfold jsRem
    rw [jsTrunc_of_nonneg (by positivity)]
    push_cast
    rw [hv]
  refine ⟨?_, ?_, ?_⟩
  · rw [he]
    exact Rat.den_intCast _
  · rw [he, Rat.num_intCast]
    have h0 := hb.1
    rw [he] at h0
    exact_mod_cast h0
  · rw [he, Rat.num_intCast]
    have h2 := hb.2
    rw [he] at h2
    exact_mod_cast h2

theorem giChain_total {seed : ℚ} (hs : 0 ≤ seed) {iiOff jjOff kkOff : ℤ}
    (hii : 0 ≤ iiOff ∧ iiOff ≤ 256) (hjj : 0 ≤ jjOff ∧ jjOff ≤ 256)
    (hkk : 0 ≤ kkOff ∧ kkOff ≤ 256) :
    ∃ w : ℚ, giChain seed iiOff jjOff kkOff = some w ∧
      w.den = 1 ∧ 0 ≤ w.num ∧ w.num < 12 := by
  obtain ⟨v1, hv1, hd1, hn1, hb1⟩ := permTable_good hs kkOff hkk.1 (by omega)
  obtain ⟨v2, hv2, hd2, hn2, hb2⟩ := permTable_good hs (jjOff + v1.num) (by omega) (by omega)
  obtain ⟨v3, hv3, hd3, hn3, hb3⟩ := permTable_good hs (iiOff + v2.num) (by omega) (by omega)
  refine ⟨jsRem v3 12, ?_, (jsRem_twelve_int hd3 hn3).1, (jsRem_twelve_int hd3 hn3).2.1,
    (jsRem_twelve_int hd3 hn3).2.2⟩
  unfold giChain
  rw [hv1]
  dsimp only
  rw [if_pos hd1, hv2]
  dsimp only
  rw [if_pos hd2, hv3]

theorem gradLookup_total {w : ℚ} (hd : w.den = 1) (h0 : 0 ≤ w.num) (h12 : w.num < 12) :
    ∃ g, gradLookup (some w) = some g := by
  rw [show gradLookup (some w) =
    if w.den = 1 ∧ 0 ≤ w.num ∧ w.num < 12 then grad3[w.num.toNat]? else none from rfl]
  rw [if_pos ⟨hd, h0, h12⟩]
  have hlt : w.num.toNat < grad3.length := by
    rw [show grad3.length = 12 from rfl]
    omega
  exact ⟨grad3[w.num.toNat], List.getElem?_eq_getElem hlt⟩

theorem cornerContrib_bind_total {α : Type} [LinearOrderedField α] (g : ℤ × ℤ × ℤ)
    (t x y z : α) {k : α → Option α} (hk : ∀ w, ∃ v, k w = some v) :
    ∃ v, (cornerContrib t (some g) x y z >>= k) = some v := by
  unfold cornerContrib
  split_ifs
  · simpa using hk 0
  · simpa using hk (t * t * (t * t) * gdot g x y z)

theorem simplexCorners_le {α : Type} [LinearOrderedField α] (x0 y0 z0 : α) :
    (simplexCorners x0 y0 z0).1.1 ≤ 1 ∧ (simplexCorners x0 y0 z0).1.2.1 ≤ 1 ∧
      (simplexCorners x0 y0 z0).1.2.2 ≤ 1 ∧ (simplexCorners x0 y0 z0).2.1 ≤ 1 ∧
      (simplexCorners x0 y0 z0).2.2.1 ≤ 1 ∧ (simplexCorners x0 y0 z0).2.2.2 ≤ 1 := by
  unfold simplexCorners
  split_ifs <;> simp

theorem noiseO_total {α : Type} [LinearOrderedField α] [FloorRing α] {seed : ℚ}
    (hs : 0 ≤ seed) (xin yin zin : α) : ∃ v, noiseO seed xin yin zin = some v := by
  unfold noiseO
  dsimp only
  have hmod : ∀ z : ℤ, 0 ≤ z % 256 ∧ z % 256 ≤ 256 := by
    intro z
    have h1 := Int.emod_lt_of_pos z (show (0:ℤ) < 256 by norm_num)
    have h2 := Int.emod_nonneg z (show (256:ℤ) ≠ 0 by norm_num)
    omega
  have hoff : ∀ (z : ℤ) (nn : ℕ), nn ≤ 1 → 0 ≤ z % 256 + (nn : ℤ) ∧ z % 256 + (nn : ℤ) ≤ 256 := by
    intro z nn hnn
    have h1 := Int.emod_lt_of_pos z (show (0:ℤ) < 256 by norm_num)
    have h2 := Int.emod_nonneg z (show (256:ℤ) ≠ 0 by norm_num)
    omega
  have hoff1 : ∀ z : ℤ, 0 ≤ z % 256 + 1 ∧ z % 256 + 1 ≤ 256 := by
    intro z
    have h1 := Int.emod_lt_of_pos z (show (0:ℤ) < 256 by norm_num)
    have h2 := Int.emod_nonneg z (show (256:ℤ) ≠ 0 by norm_num)
    omega
  have hco := fun (a b c : α) => simplexCorners_le a b c
  obtain ⟨w0, hw0, hd0, hn0, hb0⟩ := giChain_total hs (hmod _) (hmod _) (hmod _)
  obtain ⟨g0, hg0⟩ := gradLookup_total hd0 hn0 hb0
  rw [← hw0] at hg0
  obtain ⟨w1, hw1, hd1, hn1, hb1⟩ := giChain_total hs
    (hoff _ _ (hco _ _ _).1) (hoff _ _ (hco _ _ _).2.1) (hoff _ _ (hco _ _ _).2.2.1)
  obtain ⟨g1, hg1⟩ := gradLookup_total hd1 hn1 hb1
  rw [← hw1] at hg1
  obtain ⟨w2, hw2, hd2, hn2, hb2⟩ := giChain_total hs
    (hoff _ _ (hco _ _ _).2.2.2.1) (hoff _ _ (hco _ _ _).2.2.2.2.1)
    (hoff _ _ (hco _ _ _).2.2.2.2.2)
  obtain ⟨g2, hg2⟩ := gradLookup_total hd2 hn2 hb2
  rw [← hw2] at hg2
  obtain ⟨w3, hw3, hd3, hn3, hb3⟩ := giChain_total hs (hoff1 _) (hoff1 _) (hoff1 _)
  obtain ⟨g3, hg3⟩ := gradLookup_total hd3 hn3 hb3
  rw [← hw3] at hg3
  rw [hg0, hg1, hg2, hg3]
  refine cornerContrib_bind_total g0 _ _ _ _ (fun n0 => ?_)
  refine cornerContrib_bind_total g1 _ _ _ _ (fun n1 => ?_)
  refine cornerContrib_bind_total g2 _ _ _ _ (fun n2 => ?_)
  refine cornerContrib_bind_total g3 _ _ _ _ (fun n3 => ?_)
  exact ⟨_, rfl⟩

theorem range255_split :
    (List.range 255).map (fun t => 255 - t) = 255 :: (List.range 254).map (fun t => 254 - t) := by
  rw [List.range_succ_eq_map, List.map_cons, List.map_map]
  refine congrArg₂ List.cons (by norm_num) ?_
  exact List.map_congr_left fun t ht => by simp [Function.comp]

theorem seedStep_eval : jsRem ((-100 : ℚ) * 9301 + 49297) 233280 = -180963 := by
  unfold jsRem jsTrunc
  rw [if_pos (show ((-100 : ℚ) * 9301 + 49297) / 233280 < 0 by norm_num)]
  rw [show ⌊-(((-100 : ℚ) * 9301 + 49297) / 233280)⌋ = 3 from by
    rw [Int.floor_eq_iff]
    constructor <;> norm_num]
  norm_num

theorem idx_eval : ⌊(-180963 : ℚ) / 233280 * (((255 : ℕ) : ℚ) + 1)⌋ = -199 := by
  rw [Int.floor_eq_iff]
  constructor <;> (push_cast; norm_num)

theorem step255 : ((shuffleStep (pInit, (-100 : ℚ)) 255).1) 255 = none := by
  unfold shuffleStep
  dsimp only
  rw [seedStep_eval, idx_eval]
  unfold pWrite
  rw [if_neg (by decide : ¬ (255 : ℤ) = -199)]
  rw [if_pos (by norm_num : (255 : ℤ) = ((255 : ℕ) : ℤ))]
  unfold pInit
  rw [if_neg (by decide : ¬ ((0 : ℤ) ≤ -199 ∧ (-199 : ℤ) < 256))]

theorem shuffleStep_keep255 {st : (ℤ → Option ℚ) × ℚ} {i : ℕ} (hi : i < 255)
    (h : st.1 255 = none) : (shuffleStep st i).1 255 = none := by
  unfold shuffleStep
  dsimp only
  set s := jsRem (st.2 * 9301 + 49297) 233280 with hsdef
  have hslt : s < 233280 := jsRem_lt_of_pos (by norm_num)
  set n : ℤ := ⌊s / 233280 * ((i : ℚ) + 1)⌋ with hndef
  have hnlt : n < 255 := by
    have h1 : s / 233280 < 1 := (div_lt_one (by norm_num)).mpr hslt
    have h2 : s / 233280 * ((i : ℚ) + 1) < 1 * ((i : ℚ) + 1) :=
      mul_lt_mul_of_pos_right h1 (by positivity)
    have h3 : n < (i : ℤ) + 1 := by
      rw [hndef]
      apply Int.floor_lt.mpr
      push_cast
      linarith
    omega
  unfold pWrite
  rw [if_neg (by omega : ¬ (255 : ℤ) = n)]
  rw [if_neg (by exact_mod_cast (by omega : ¬ (255 : ℤ) = (i : ℤ)))]
  exact h

theorem buildP_neg100_255 : buildP (-100) 255 = none := by
  unfold buildP
  rw [range255_split, List.foldl_cons]
  refine foldl_inv_mem ((List.range 254).map (fun t => 254 - t)) shuffleStep
    (fun st => st.1 255 = none) ?_ _ step255
  intro st b hb h
  obtain ⟨t, ht, hteq⟩ := List.mem_map.mp hb
  exact shuffleStep_keep255 (by omega) h

theorem permTable_neg100_255 : permTable (-100) 255 = none := by
  unfold permTable
  rw [if_pos (by decide : (0 : ℤ) ≤ 255 ∧ (255 : ℤ) < 512)]
  rw [show ((255 : ℤ) % 256) = 255 from by decide]
  exact buildP_neg100_255

theorem giChain_neg100 : giChain (-100) 63 63 255 = none := by
  unfold giChain
  rw [permTable_neg100_255]

theorem corner_bind_none {t x y z : ℚ} (h : ¬ t < 0) (k : ℚ → Option ℚ) :
    (cornerContrib t none x y z >>= k) = none := by
  unfold cornerContrib
  rw [if_neg h]
  rfl

theorem noiseO_neg100 : noiseO (-100) (0 : ℚ) 0 (765/4) = none := by
  unfold noiseO
  dsimp only
  rw [show ⌊(0 : ℚ) + ((0 : ℚ) + 0 + 765 / 4) * (1 / 3)⌋ = 63 from by
    rw [Int.floor_eq_iff]
    constructor <;> norm_num]
  rw [show ⌊(765 : ℚ) / 4 + ((0 : ℚ) + 0 + 765 / 4) * (1 / 3)⌋ = 255 from by
    rw [Int.floor_eq_iff]
    constructor <;> norm_num]
  rw [show ((63 : ℤ) % 256) = 63 from by decide,
    show ((255 : ℤ) % 256) = 255 from by decide]
  rw [giChain_neg100]
  rw [show gradLookup none = none from rfl]
  refine corner_bind_none ?_ _
  push_cast
  norm_num

theorem inverseNormalCDF_clamp_eq_some {lo hi : ℝ} (v : ℝ) (h0 : 0 < lo)
    (h1 : hi < 1) (hlh : lo ≤ hi) :
    inverseNormalCDF (clamp v lo hi) = some (inverseNormalCDFCore (clamp v lo hi)) := by
  have hmem : lo ≤ clamp v lo hi ∧ clamp v lo hi ≤ hi := by
    constructor
    · exact le_max_left _ _
    · simp only [clamp, max_le_iff]
      exact ⟨hlh, min_le_left _ _⟩
  rw [inverseNormalCDF, if_neg]
  push_neg
  exact ⟨by linarith [hmem.1], by linarith [hmem.2]⟩

theorem percentile_some (u s : ℝ) :
    percentileToElevationFeet u s = some (elevPair u s) := by
  unfold percentileToElevationFeet elevPair
  dsimp only
  split
  · rw [inverseNormalCDF_clamp_eq_some _ (by norm_num) (by norm_num) (by norm_num)]
    rfl
  · rw [inverseNormalCDF_clamp_eq_some _ (by norm_num) (by norm_num) (by norm_num)]
    rfl

theorem clamp_mem {α : Type} [LinearOrder α] (x lo hi : α) (h : lo ≤ hi) :
    lo ≤ clamp x lo hi ∧ clamp x lo hi ≤ hi := by
  constructor
  · exact le_max_left _ _
  · simp only [clamp, max_le_iff]
    exact ⟨h, min_le_left _ _⟩

theorem clamp_mono {α : Type} [LinearOrder α] {x y : α} (lo hi : α) (h : x ≤ y) :
    clamp x lo hi ≤ clamp y lo hi := by
  unfold clamp
  exact max_le_max le_rfl (min_le_min le_rfl h)

theorem clamp_of_mem {α : Type} [LinearOrder α] {x lo hi : α} (h1 : lo ≤ x) (h2 : x ≤ hi) :
    clamp x lo hi = x := by
  simp [clamp, min_eq_right h2, max_eq_right h1]

theorem sorted_getD_le {α : Type} [LinearOrderedField α] {xs : List α}
    (hs : xs.Sorted (· ≤ ·)) {i j : ℕ} (hij : i ≤ j) (hj : j < xs.length) :
    xs.getD i 0 ≤ xs.getD j 0 := by
  rcases Nat.eq_or_lt_of_le hij with h | h
  · subst h; exact le_rfl
  · have hi : i < xs.length := by omega
    have := List.pairwise_iff_getElem.mp hs i j hi hj h
    rw [List.getD_eq_getElem?_getD, List.getD_eq_getElem?_getD,
      List.getElem?_eq_getElem hi, List.getElem?_eq_getElem hj]
    exact this

/-- The binary-search loop computes the least index whose element is `≥ raw`,
on a `≤`-sorted list. -/
theorem bsearchAux_spec {α : Type} [LinearOrderedField α] {xs : List α} {raw : α}
    (hs : xs.Sorted (· ≤ ·)) :
    ∀ (fuel lo hi : ℕ), hi ≤ xs.length → lo ≤ hi → hi - lo ≤ fuel →
    (∀ i < lo, xs.getD i 0 < raw) →
    (∀ i, hi ≤ i → i < xs.length → raw ≤ xs.getD i 0) →
    (∀ i < bsearchAux xs raw fuel lo hi, xs.getD i 0 < raw) ∧
      (∀ i, bsearchAux xs raw fuel lo hi ≤ i → i < xs.length → raw ≤ xs.getD i 0) ∧
      lo ≤ bsearchAux xs raw fuel lo hi ∧ bsearchAux xs raw fuel lo hi ≤ hi := by
  intro fuel
  induction fuel with
  | zero =>
    intro lo hi hn hlh hfuel hlow hhigh
    have : hi = lo := by omega
    subst this
    exact ⟨hlow, hhigh, le_rfl, le_rfl⟩
  | succ fuel ih =>
    intro lo hi hn hlh hfuel hlow hhigh
    unfold bsearchAux
    by_cases hcond : lo < hi
    · simp only [if_pos hcond]
      by_cases hm : xs.getD ((lo + hi) / 2) 0 < raw
      · simp only [if_pos hm]
        have h := ih ((lo + hi) / 2 + 1) hi hn (by omega) (by omega) ?_ hhigh
        · exact ⟨h.1, h.2.1, by omega, h.2.2.2⟩
        · intro i hi2
          rcases Nat.lt_or_ge i lo with h | h
          · exact hlow i h
          · exact lt_of_le_of_lt (sorted_getD_le hs (by omega) (by omega)) hm
      · simp only [if_neg hm]
        have h := ih lo ((lo + hi) / 2) (by omega) (by omega) (by omega) hlow ?_
        · exact ⟨h.1, h.2.1, h.2.2.1, by omega⟩
        · intro i hi2 hi3
          exact le_trans (not_lt.mp hm) (sorted_getD_le hs hi2 hi3)
    · simp only [if_neg hcond]
      have : hi = lo := by omega
      subst this
      exact ⟨hlow, hhigh, le_rfl, le_rfl⟩

theorem rawToPercentile_range {α : Type} [LinearOrderedField α] (xs : List α) (raw : α)
    (hn : 0 < xs.length) :
    0.5 / (xs.length : α) ≤ rawToPercentile xs raw ∧
      rawToPercentile xs raw ≤ ((xs.length : α) - 0.5) / (xs.length : α) := by
  have hnQ : (1 : α) ≤ (xs.length : α) := by exact_mod_cast hn
  have hnpos : (0 : α) < (xs.length : α) := by linarith
  have hhalf : (0.5 : α) ≤ (xs.length : α) - 0.5 := by linarith
  unfold rawToPercentile
  simp only [if_neg (Nat.pos_iff_ne_zero.mp hn)]
  by_cases h1 : raw ≤ xs.getD 0 0
  · simp only [if_pos h1]
    exact ⟨le_rfl, by gcongr⟩
  · simp only [if_neg h1]
    by_cases h2 : xs.getD (xs.length - 1) 0 ≤ raw
    · simp only [if_pos h2]
      exact ⟨by gcongr, le_rfl⟩
    · simp only [if_neg h2]
      have hidx := clamp_mem (bsearchAux xs raw xs.length 0 xs.length) 0 (xs.length - 1)
        (Nat.zero_le _)
      have hcast : ((clamp (bsearchAux xs raw xs.length 0 xs.length) 0 (xs.length - 1) : ℕ) : α)
          ≤ ((xs.length - 1 : ℕ) : α) := by exact_mod_cast hidx.2
      have hpred : ((xs.length - 1 : ℕ) : α) = (xs.length : α) - 1 := Nat.cast_pred hn
      have hub : ((clamp (bsearchAux xs raw xs.length 0 xs.length) 0 (xs.length - 1) : ℕ) : α)
          ≤ (xs.length : α) - 1 := by rw [hpred] at hcast; exact hcast
      have hlb : (0 : α) ≤
          ((clamp (bsearchAux xs raw xs.length 0 xs.length) 0 (xs.length - 1) : ℕ) : α) :=
        Nat.cast_nonneg _
      constructor
      · exact (div_le_div_iff_of_pos_right hnpos).mpr (by linarith)
      · exact (div_le_div_iff_of_pos_right hnpos).mpr (by linarith)

theorem rawToPercentile_strictSorted {α : Type} [LinearOrderedField α] {xs : List α}
    (hs : xs.Sorted (· < ·)) {rank : ℕ} (hr : rank < xs.length) :
    rawToPercentile xs (xs.getD rank 0) = ((rank : α) + 0.5) / (xs.length : α) := by
  have hs' : xs.Sorted (· ≤ ·) := hs.imp le_of_lt
  have hn : 0 < xs.length := by omega
  have hlt : ∀ i j : ℕ, i < j → j < xs.length → xs.getD i 0 < xs.getD j 0 := by
    intro i j hij hj
    have hi : i < xs.length := by omega
    have := List.pairwise_iff_getElem.mp hs i j hi hj hij
    rw [List.getD_eq_getElem?_getD, List.getD_eq_getElem?_getD,
      List.getElem?_eq_getElem hi, List.getElem?_eq_getElem hj]
    exact this
  unfold rawToPercentile
  simp only [if_neg (Nat.pos_iff_ne_zero.mp hn)]
  by_cases h0 : rank = 0
  · subst h0
    simp only [if_pos le_rfl]
    norm_num
  · have h1 : ¬ xs.getD rank 0 ≤ xs.getD 0 0 := not_le.mpr (hlt 0 rank (by omega) hr)
    simp only [if_neg h1]
    by_cases hL : rank = xs.length - 1
    · subst hL
      simp only [if_pos le_rfl]
      rw [Nat.cast_pred hn]
      ring_nf
    · have h2 : ¬ xs.getD (xs.length - 1) 0 ≤ xs.getD rank 0 :=
        not_le.mpr (hlt rank (xs.length - 1) (by omega) (by omega))
      simp only [if_neg h2]
      have hspec := @bsearchAux_spec α _ xs (xs.getD rank 0) hs' xs.length 0 xs.length le_rfl
        (Nat.zero_le _) (by omega) (fun i h => absurd h (Nat.not_lt_zero i))
        (fun i h1' h2' => absurd h2' (by omega))
      set r := bsearchAux xs (xs.getD rank 0) xs.length 0 xs.length with hrdef
      have hr1 : r ≤ rank := by
        by_contra hcon
        exact lt_irrefl _ (hspec.1 rank (by omega))
      have hr2 : rank ≤ r := by
        by_contra hcon
        have h1 : xs.getD rank 0 ≤ xs.getD r 0 := hspec.2.1 r le_rfl (by omega)
        exact absurd (hlt r rank (by omega) hr) (not_lt.mpr h1)
      have : r = rank := le_antisymm hr1 hr2
      rw [this, clamp_of_mem (Nat.zero_le _) (by omega)]

/-! ### Claim theorems: C4 and C10 -/

/-- C4: the claim that for every sorted distribution and every rank,
`rawToPercentile(dist, dist[rank])` is within `1/N` of `(rank+0.5)/N` fails in
the presence of ties: on the sorted 5-element distribution `[1,5,5,5,9]` at
`rank = 3` it returns `0.3`, which differs from `(3+0.5)/5 = 0.7` by `0.4 > 1/5`. -/
theorem C4_counterexample :
    ([1, 5, 5, 5, 9] : List ℚ).Sorted (· ≤ ·) ∧
      ([1, 5, 5, 5, 9] : List ℚ).length = 5 ∧
      rawToPercentile ([1, 5, 5, 5, 9] : List ℚ) (([1, 5, 5, 5, 9] : List ℚ).getD 3 0)
        = 3 / 10 ∧
      ¬ |(3 / 10 : ℚ) - ((3 : ℚ) + 0.5) / 5| ≤ 1 / 5 := by
  refine ⟨?_, by simp, ?_, by rw [abs_of_nonpos (by norm_num)]; norm_num⟩
  · simp only [List.sorted_cons, List.mem_cons]
    norm_num
  · norm_num [rawToPercentile, bsearchAux, clamp]

/-- C4 (amended): on a strictly sorted distribution (no ties)
`rawToPercentile(dist, dist[rank])` equals `(rank+0.5)/N` exactly, hence is
within `1/N` of it; with ties the result is the first tied index's bucket,
which can deviate by more than `1/N` (see the counterexample). -/
theorem C4_amended {α : Type} [LinearOrderedField α] (xs : List α) (rank : ℕ)
    (hs : xs.Sorted (· < ·)) (hr : rank < xs.length) :
    rawToPercentile xs (xs.getD rank 0) = ((rank : α) + 0.5) / (xs.length : α) ∧
      |rawToPercentile xs (xs.getD rank 0) - ((rank : α) + 0.5) / (xs.length : α)|
        ≤ 1 / (xs.length : α) := by
  have h := rawToPercentile_strictSorted hs hr
  refine ⟨h, ?_⟩
  rw [h, sub_self, abs_zero]
  positivity

/-- C4 (amended) witness at a concrete strictly sorted distribution. -/
theorem C4_amended_witness :
    ([1, 2, 4] : List ℚ).Sorted (· < ·) ∧ (1 : ℕ) < ([1, 2, 4] : List ℚ).length ∧
      rawToPercentile ([1, 2, 4] : List ℚ) (([1, 2, 4] : List ℚ).getD 1 0)
        = ((1 : ℚ) + 0.5) / 3 := by
  have hs : ([1, 2, 4] : List ℚ).Sorted (· < ·) := by
    simp only [List.sorted_cons, List.mem_cons]
    norm_num
  refine ⟨hs, by simp, ?_⟩
  have h := (C4_amended ([1, 2, 4] : List ℚ) 1 hs (by simp)).1
  simpa using h

/-- C10: the claim as stated fails on a tied distribution: on `[5,5]` the value
`5` is at-or-above the maximum, but `rawToPercentile` returns the minimum
bucket `0.5/2 = 0.25` (the at-or-below-the-minimum rule fires first), not
`(N-0.5)/N = 0.75`. -/
theorem C10_counterexample :
    ([5, 5] : List ℚ).Sorted (· ≤ ·) ∧
      ([5, 5] : List ℚ).getD 1 0 ≤ (5 : ℚ) ∧
      rawToPercentile ([5, 5] : List ℚ) 5 = 1 / 4 ∧
      (1 / 4 : ℚ) ≠ ((2 : ℚ) - 0.5) / 2 := by
  refine ⟨?_, by simp, ?_, by norm_num⟩
  · simp only [List.sorted_cons, List.mem_cons]
    norm_num
  · norm_num [rawToPercentile]

/-- C10 (amended): `rawToPercentile` always returns a value strictly inside
`(0,1)`: on the empty distribution it returns `0.5`; on a non-empty sorted
distribution of length `N` the result lies in `[0.5/N, (N-0.5)/N]`, values at
or below the first element map to `0.5/N`, and values at or above the last
element map to `(N-0.5)/N` provided they are strictly above the first element
(when the two extreme rules overlap, the minimum rule wins). -/
theorem C10_amended (xs : List ℚ) (raw : ℚ) (hs : xs.Sorted (· ≤ ·))
    (hn : 0 < xs.length) :
    (rawToPercentile ([] : List ℚ) raw = 0.5) ∧
      0.5 / (xs.length : ℚ) ≤ rawToPercentile xs raw ∧
      rawToPercentile xs raw ≤ ((xs.length : ℚ) - 0.5) / (xs.length : ℚ) ∧
      0 < rawToPercentile xs raw ∧ rawToPercentile xs raw < 1 ∧
      (raw ≤ xs.getD 0 0 → rawToPercentile xs raw = 0.5 / (xs.length : ℚ)) ∧
      (xs.getD (xs.length - 1) 0 ≤ raw → xs.getD 0 0 < raw →
        rawToPercentile xs raw = ((xs.length : ℚ) - 0.5) / (xs.length : ℚ)) := by
  have hnQ : (1 : ℚ) ≤ (xs.length : ℚ) := by exact_mod_cast hn
  have hnpos : (0 : ℚ) < (xs.length : ℚ) := by linarith
  have hrange := rawToPercentile_range xs raw hn
  refine ⟨rfl, hrange.1, hrange.2, ?_, ?_, ?_, ?_⟩
  · calc (0 : ℚ) < 0.5 / (xs.length : ℚ) := by positivity
    _ ≤ _ := hrange.1
  · calc rawToPercentile xs raw ≤ ((xs.length : ℚ) - 0.5) / (xs.length : ℚ) := hrange.2
    _ < 1 := by
        rw [div_lt_one hnpos]
        linarith
  · intro h
    unfold rawToPercentile
    simp only [if_neg (Nat.pos_iff_ne_zero.mp hn), if_pos h]
  · intro h hmin
    unfold rawToPercentile
    simp only [if_neg (Nat.pos_iff_ne_zero.mp hn), if_neg (not_le.mpr hmin), if_pos h]

/-- C10 (amended) witness at a concrete distribution. -/
theorem C10_amended_witness :
    ([1, 2] : List ℚ).Sorted (· ≤ ·) ∧ (0 : ℕ) < ([1, 2] : List ℚ).length ∧
      0.5 / (2 : ℚ) ≤ rawToPercentile ([1, 2] : List ℚ) 3 :=
  by
  have hs : ([1, 2] : List ℚ).Sorted (· ≤ ·) := by
    simp only [List.sorted_cons, List.mem_cons]
    norm_num
  refine ⟨hs, by simp, ?_⟩
  have h := C10_amended ([1, 2] : List ℚ) 3 hs (by simp)
  simpa using h.2.1

/-- C8: for every sea level, `colorFromElevationFeet(seaLevelFeet - 1, seaLevelFeet)`
with the default configuration returns exactly the shallow-ocean color, and
`colorFromElevationFeet(seaLevelFeet, seaLevelFeet)` returns exactly the low-land
color (the start of the low-land-to-high-land gradient, smoothstep parameter 0). -/
theorem C8_color_boundaries (seaLevelFeet : ℚ) :
    colorFromElevationFeet (seaLevelFeet - 1) seaLevelFeet TERRAIN_COLOR_CONFIG
        = TERRAIN_COLOR_CONFIG.shallowOcean ∧
      colorFromElevationFeet seaLevelFeet seaLevelFeet TERRAIN_COLOR_CONFIG
        = TERRAIN_COLOR_CONFIG.lowLand := by
  constructor
  · simp only [colorFromElevationFeet, TERRAIN_COLOR_CONFIG]
    rw [if_neg (by linarith), if_neg (by linarith), if_pos (by linarith)]
  · simp only [colorFromElevationFeet, TERRAIN_COLOR_CONFIG]
    rw [if_neg (by linarith), if_neg (by linarith), if_neg (by linarith),
      if_pos (by linarith)]
    unfold smoothstep clamp mix
    norm_num

/-! ### Positivity certificates for the Acklam polynomials -/

set_option maxHeartbeats 1600000 in
theorem acklamCentralNum_pos (x : ℝ) (h0 : (0 : ℝ) ≤ x) (h1 : x ≤ ((3621409 : ℝ) / 16000000)) : 0 < acklamCentralNum x := by
  have hx : (0:ℝ) ≤ x - (0 : ℝ) := by linarith
  have hy : (0:ℝ) ≤ ((3621409 : ℝ) / 16000000) - x := by linarith
  have key : acklamCentralNum x = ((238944568424100003840000000000000000 : ℝ) / 56623302778181652970815560771459) * (((3621409 : ℝ) / 16000000) - x) ^ 5 +
      ((533108469368637683348275200000000000 : ℝ) / 56623302778181652970815560771459) * (x - (0 : ℝ)) ^ 1 * (((3621409 : ℝ) / 16000000) - x) ^ 4 +
      ((418644620869912163543415189504000000 : ℝ) / 56623302778181652970815560771459) * (x - (0 : ℝ)) ^ 2 * (((3621409 : ℝ) / 16000000) - x) ^ 3 +
      ((141745060505125823508720291916469504 : ℝ) / 56623302778181652970815560771459) * (x - (0 : ℝ)) ^ 3 * (((3621409 : ℝ) / 16000000) - x) ^ 2 +
      ((1283855093908577173569228178192101262971 : ℝ) / 3538956423636353310675972548216187500) * (x - (0 : ℝ)) ^ 4 * (((3621409 : ℝ) / 16000000) - x) ^ 1 +
      ((5147876410653028032547801234696349191481730529 : ℝ) / 283116513890908264854077803857295000000000000) * (x - (0 : ℝ)) ^ 5 := by
    unfold acklamCentralNum
    ring
  have t0 : (0:ℝ) ≤ ((238944568424100003840000000000000000 : ℝ) / 56623302778181652970815560771459) * (((3621409 : ℝ) / 16000000) - x) ^ 5 :=
      mul_nonneg (by norm_num) (pow_nonneg hy 5)
  have t1 : (0:ℝ) ≤ ((533108469368637683348275200000000000 : ℝ) / 56623302778181652970815560771459) * (x - (0 : ℝ)) ^ 1 * (((3621409 : ℝ) / 16000000) - x) ^ 4 :=
      mul_nonneg (mul_nonneg (by norm_num) (pow_nonneg hx 1)) (pow_nonneg hy 4)
  have t2 : (0:ℝ) ≤ ((418644620869912163543415189504000000 : ℝ) / 56623302778181652970815560771459) * (x - (0 : ℝ)) ^ 2 * (((3621409 : ℝ) / 16000000) - x) ^ 3 :=
      mul_nonneg (mul_nonneg (by norm_num) (pow_nonneg hx 2)) (pow_nonneg hy 3)
  have t3 : (0:ℝ) ≤ ((141745060505125823508720291916469504 : ℝ) / 56623302778181652970815560771459) * (x - (0 : ℝ)) ^ 3 * (((3621409 : ℝ) / 16000000) - x) ^ 2 :=
      mul_nonneg (mul_nonneg (by norm_num) (pow_nonneg hx 3)) (pow_nonneg hy 2)
  have t4 : (0:ℝ) ≤ ((1283855093908577173569228178192101262971 : ℝ) / 3538956423636353310675972548216187500) * (x - (0 : ℝ)) ^ 4 * (((3621409 : ℝ) / 16000000) - x) ^ 1 :=
      mul_nonneg (mul_nonneg (by norm_num) (pow_nonneg hx 4)) (pow_nonneg hy 1)
  have t5 : (0:ℝ) ≤ ((5147876410653028032547801234696349191481730529 : ℝ) / 283116513890908264854077803857295000000000000) * (x - (0 : ℝ)) ^ 5 :=
      mul_nonneg (by norm_num) (pow_nonneg hx 5)
  rcases lt_or_eq_of_le h1 with hlt | heq
  · have hstrict : (0:ℝ) < ((238944568424100003840000000000000000 : ℝ) / 56623302778181652970815560771459) * (((3621409 : ℝ) / 16000000) - x) ^ 5 :=
      mul_pos (by norm_num) (pow_pos (by linarith) 5)
    linarith [key, t0, t1, t2, t3, t4, t5]
  · have hstrict : (0:ℝ) < ((5147876410653028032547801234696349191481730529 : ℝ) / 283116513890908264854077803857295000000000000) * (x - (0 : ℝ)) ^ 5 :=
      mul_pos (by norm_num) (pow_pos (by linarith) 5)
    linarith [key, t0, t1, t2, t3, t4, t5]

set_option maxHeartbeats 1600000 in
theorem acklamCentralDen_pos (x : ℝ) (h0 : (0 : ℝ) ≤ x) (h1 : x ≤ ((3621409 : ℝ) / 16000000)) : 0 < acklamCentralDen x := by
  have hx : (0:ℝ) ≤ x - (0 : ℝ) := by linarith
  have hy : (0:ℝ) ≤ ((3621409 : ℝ) / 16000000) - x := by linarith
  have key : acklamCentralDen x = ((1048576000000000000000000000000000000 : ℝ) / 622856330559998182678971168486049) * (((3621409 : ℝ) / 16000000) - x) ^ 5 +
      ((2090940517465833475191603200000000000 : ℝ) / 622856330559998182678971168486049) * (x - (0 : ℝ)) ^ 1 * (((3621409 : ℝ) / 16000000) - x) ^ 4 +
      ((1466395828548869473303370693427200000 : ℝ) / 622856330559998182678971168486049) * (x - (0 : ℝ)) ^ 2 * (((3621409 : ℝ) / 16000000) - x) ^ 3 +
      ((446270172080747179263987059641594112 : ℝ) / 622856330559998182678971168486049) * (x - (0 : ℝ)) ^ 3 * (((3621409 : ℝ) / 16000000) - x) ^ 2 +
      ((3681286075342075109989409252277523865401 : ℝ) / 38928520659999886417435698030378062500) * (x - (0 : ℝ)) ^ 4 * (((3621409 : ℝ) / 16000000) - x) ^ 1 +
      ((27309332070762308376124005378684029988891744191 : ℝ) / 6228563305599981826789711684860490000000000000) * (x - (0 : ℝ)) ^ 5 := by
    unfold acklamCentralDen
    ring
  have t0 : (0:ℝ) ≤ ((1048576000000000000000000000000000000 : ℝ) / 622856330559998182678971168486049) * (((3621409 : ℝ) / 16000000) - x) ^ 5 :=
      mul_nonneg (by norm_num) (pow_nonneg hy 5)
  have t1 : (0:ℝ) ≤ ((2090940517465833475191603200000000000 : ℝ) / 622856330559998182678971168486049) * (x - (0 : ℝ)) ^ 1 * (((3621409 : ℝ) / 16000000) - x) ^ 4 :=
      mul_nonneg (mul_nonneg (by norm_num) (pow_nonneg hx 1)) (pow_nonneg hy 4)
  have t2 : (0:ℝ) ≤ ((1466395828548869473303370693427200000 : ℝ) / 622856330559998182678971168486049) * (x - (0 : ℝ)) ^ 2 * (((3621409 : ℝ) / 16000000) - x) ^ 3 :=
      mul_nonneg (mul_nonneg (by norm_num) (pow_nonneg hx 2)) (pow_nonneg hy 3)
  have t3 : (0:ℝ) ≤ ((446270172080747179263987059641594112 : ℝ) / 622856330559998182678971168486049) * (x - (0 : ℝ)) ^ 3 * (((3621409 : ℝ) / 16000000) - x) ^ 2 :=
      mul_nonneg (mul_nonneg (by norm_num) (pow_nonneg hx 3)) (pow_nonneg hy 2)
  have t4 : (0:ℝ) ≤ ((3681286075342075109989409252277523865401 : ℝ) / 38928520659999886417435698030378062500) * (x - (0 : ℝ)) ^ 4 * (((3621409 : ℝ) / 16000000) - x) ^ 1 :=
      mul_nonneg (mul_nonneg (by norm_num) (pow_nonneg hx 4)) (pow_nonneg hy 1)
  have t5 : (0:ℝ) ≤ ((27309332070762308376124005378684029988891744191 : ℝ) / 6228563305599981826789711684860490000000000000) * (x - (0 : ℝ)) ^ 5 :=
      mul_nonneg (by norm_num) (pow_nonneg hx 5)
  rcases lt_or_eq_of_le h1 with hlt | heq
  · have hstrict : (0:ℝ) < ((1048576000000000000000000000000000000 : ℝ) / 622856330559998182678971168486049) * (((3621409 : ℝ) / 16000000) - x) ^ 5 :=
      mul_pos (by norm_num) (pow_pos (by linarith) 5)
    linarith [key, t0, t1, t2, t3, t4, t5]
  · have hstrict : (0:ℝ) < ((27309332070762308376124005378684029988891744191 : ℝ) / 6228563305599981826789711684860490000000000000) * (x - (0 : ℝ)) ^ 5 :=
      mul_pos (by norm_num) (pow_pos (by linarith) 5)
    linarith [key, t0, t1, t2, t3, t4, t5]

set_option maxHeartbeats 1600000 in
theorem acklamCentralP_pos (x : ℝ) (h0 : (0 : ℝ) ≤ x) (h1 : x ≤ ((3621409 : ℝ) / 16000000)) : 0 < acklamCentralP x := by
  have hx : (0:ℝ) ≤ x - (0 : ℝ) := by linarith
  have hy : (0:ℝ) ≤ ((3621409 : ℝ) / 16000000) - x := by linarith
  have key : acklamCentralP x = ((250551539779869085626531840000000000000000000000000000000000000000000000 : ℝ) / 35268182592605975095798642269255876100595282941922430791518875491) * (((3621409 : ℝ) / 16000000) - x) ^ 10 +
      ((1177395359583727966387735140596622938144243712000000000000000000000000000 : ℝ) / 35268182592605975095798642269255876100595282941922430791518875491) * (x - (0 : ℝ)) ^ 1 * (((3621409 : ℝ) / 16000000) - x) ^ 9 +
      ((2377211387159693739985369614332342331679866718519296000000000000000000000 : ℝ) / 35268182592605975095798642269255876100595282941922430791518875491) * (x - (0 : ℝ)) ^ 2 * (((3621409 : ℝ) / 16000000) - x) ^ 8 +
      ((2705952610876582614240752695256930660549870310151222722560000000000000000 : ℝ) / 35268182592605975095798642269255876100595282941922430791518875491) * (x - (0 : ℝ)) ^ 3 * (((3621409 : ℝ) / 16000000) - x) ^ 7 +
      ((1916613506884985120628926848184104363814929311825985493553643520000000000 : ℝ) / 35268182592605975095798642269255876100595282941922430791518875491) * (x - (0 : ℝ)) ^ 4 * (((3621409 : ℝ) / 16000000) - x) ^ 6 +
      ((879999794896636112892367117362634221279166927894794831278160377544704000 : ℝ) / 35268182592605975095798642269255876100595282941922430791518875491) * (x - (0 : ℝ)) ^ 5 * (((3621409 : ℝ) / 16000000) - x) ^ 5 +
      ((1323522946639861032996181378873751567375040572184016512956103230734925824 : ℝ) / 176340912963029875478993211346279380502976414709612153957594377455) * (x - (0 : ℝ)) ^ 6 * (((3621409 : ℝ) / 16000000) - x) ^ 4 +
      ((20091772096716570554830600612251595195779577603663079486344255790155424395072 : ℝ) / 13776633825236709021796344636428076601795032399188449527937060738671875) * (x - (0 : ℝ)) ^ 7 * (((3621409 : ℝ) / 16000000) - x) ^ 3 +
      ((241459603126478410491083620164919555890594822063259327500224362662273482527843783 : ℝ) / 1377663382523670902179634463642807660179503239918844952793706073867187500000) * (x - (0 : ℝ)) ^ 8 * (((3621409 : ℝ) / 16000000) - x) ^ 2 +
      ((259574723533503394432703764308435000450634521859884841081627563715994859078158146511313 : ℝ) / 22042614120378734434874151418284922562872051838701519244699297181875000000000000000) * (x - (0 : ℝ)) ^ 9 * (((3621409 : ℝ) / 16000000) - x) ^ 1 +
      ((595046891309576543532993106385736960284775959886139646851125880172057880074437587981383107039 : ℝ) / 1763409129630298754789932113462793805029764147096121539575943774550000000000000000000000000) * (x - (0 : ℝ)) ^ 10 := by
    unfold acklamCentralP acklamCentralNum acklamCentralDen acklamCentralNumD acklamCentralDenD
    ring
  have t0 : (0:ℝ) ≤ ((250551539779869085626531840000000000000000000000000000000000000000000000 : ℝ) / 35268182592605975095798642269255876100595282941922430791518875491) * (((3621409 : ℝ) / 16000000) - x) ^ 10 :=
      mul_nonneg (by norm_num) (pow_nonneg hy 10)
  have t1 : (0:ℝ) ≤ ((1177395359583727966387735140596622938144243712000000000000000000000000000 : ℝ) / 35268182592605975095798642269255876100595282941922430791518875491) * (x - (0 : ℝ)) ^ 1 * (((3621409 : ℝ) / 16000000) - x) ^ 9 :=
      mul_nonneg (mul_nonneg (by norm_num) (pow_nonneg hx 1)) (pow_nonneg hy 9)
  have t2 : (0:ℝ) ≤ ((2377211387159693739985369614332342331679866718519296000000000000000000000 : ℝ) / 35268182592605975095798642269255876100595282941922430791518875491) * (x - (0 : ℝ)) ^ 2 * (((3621409 : ℝ) / 16000000) - x) ^ 8 :=
      mul_nonneg (mul_nonneg (by norm_num) (pow_nonneg hx 2)) (pow_nonneg hy 8)
  have t3 : (0:ℝ) ≤ ((2705952610876582614240752695256930660549870310151222722560000000000000000 : ℝ) / 35268182592605975095798642269255876100595282941922430791518875491) * (x - (0 : ℝ)) ^ 3 * (((3621409 : ℝ) / 16000000) - x) ^ 7 :=
      mul_nonneg (mul_nonneg (by norm_num) (pow_nonneg hx 3)) (pow_nonneg hy 7)
  have t4 : (0:ℝ) ≤ ((1916613506884985120628926848184104363814929311825985493553643520000000000 : ℝ) / 35268182592605975095798642269255876100595282941922430791518875491) * (x - (0 : ℝ)) ^ 4 * (((3621409 : ℝ) / 16000000) - x) ^ 6 :=
      mul_nonneg (mul_nonneg (by norm_num) (pow_nonneg hx 4)) (pow_nonneg hy 6)
  have t5 : (0:ℝ) ≤ ((879999794896636112892367117362634221279166927894794831278160377544704000 : ℝ) / 35268182592605975095798642269255876100595282941922430791518875491) * (x - (0 : ℝ)) ^ 5 * (((3621409 : ℝ) / 16000000) - x) ^ 5 :=
      mul_nonneg (mul_nonneg (by norm_num) (pow_nonneg hx 5)) (pow_nonneg hy 5)
  have t6 : (0:ℝ) ≤ ((1323522946639861032996181378873751567375040572184016512956103230734925824 : ℝ) / 176340912963029875478993211346279380502976414709612153957594377455) * (x - (0 : ℝ)) ^ 6 * (((3621409 : ℝ) / 16000000) - x) ^ 4 :=
      mul_nonneg (mul_nonneg (by norm_num) (pow_nonneg hx 6)) (pow_nonneg hy 4)
  have t7 : (0:ℝ) ≤ ((20091772096716570554830600612251595195779577603663079486344255790155424395072 : ℝ) / 13776633825236709021796344636428076601795032399188449527937060738671875) * (x - (0 : ℝ)) ^ 7 * (((3621409 : ℝ) / 16000000) - x) ^ 3 :=
      mul_nonneg (mul_nonneg (by norm_num) (pow_nonneg hx 7)) (pow_nonneg hy 3)
  have t8 : (0:ℝ) ≤ ((241459603126478410491083620164919555890594822063259327500224362662273482527843783 : ℝ) / 1377663382523670902179634463642807660179503239918844952793706073867187500000) * (x - (0 : ℝ)) ^ 8 * (((3621409 : ℝ) / 16000000) - x) ^ 2 :=
      mul_nonneg (mul_nonneg (by norm_num) (pow_nonneg hx 8)) (pow_nonneg hy 2)
  have t9 : (0:ℝ) ≤ ((259574723533503394432703764308435000450634521859884841081627563715994859078158146511313 : ℝ) / 22042614120378734434874151418284922562872051838701519244699297181875000000000000000) * (x - (0 : ℝ)) ^ 9 * (((3621409 : ℝ) / 16000000) - x) ^ 1 :=
      mul_nonneg (mul_nonneg (by norm_num) (pow_nonneg hx 9)) (pow_nonneg hy 1)
  have t10 : (0:ℝ) ≤ ((595046891309576543532993106385736960284775959886139646851125880172057880074437587981383107039 : ℝ) / 1763409129630298754789932113462793805029764147096121539575943774550000000000000000000000000) * (x - (0 : ℝ)) ^ 10 :=
      mul_nonneg (by norm_num) (pow_nonneg hx 10)
  rcases lt_or_eq_of_le h1 with hlt | heq
  · have hstrict : (0:ℝ) < ((250551539779869085626531840000000000000000000000000000000000000000000000 : ℝ) / 35268182592605975095798642269255876100595282941922430791518875491) * (((3621409 : ℝ) / 16000000) - x) ^ 10 :=
      mul_pos (by norm_num) (pow_pos (by linarith) 10)
    linarith [key, t0, t1, t2, t3, t4, t5, t6, t7, t8, t9, t10]
  · have hstrict : (0:ℝ) < ((595046891309576543532993106385736960284775959886139646851125880172057880074437587981383107039 : ℝ) / 1763409129630298754789932113462793805029764147096121539575943774550000000000000000000000000) * (x - (0 : ℝ)) ^ 10 :=
      mul_pos (by norm_num) (pow_pos (by linarith) 10)
    linarith [key, t0, t1, t2, t3, t4, t5, t6, t7, t8, t9, t10]

set_option maxHeartbeats 1600000 in
theorem acklamTailW_neg (x : ℝ) (h0 : ((272739387 : ℝ) / 100000000) ≤ x) (h1 : x ≤ ((26283 : ℝ) / 5000)) : acklamTailW x < 0 := by
  have hx : (0:ℝ) ≤ x - ((272739387 : ℝ) / 100000000) := by linarith
  have hy : (0:ℝ) ≤ ((26283 : ℝ) / 5000) - x := by linarith
  have key : -(acklamTailW x) = ((76915967906556714824509643847111069720529022810858933348872862167872373656240925479927691879506530557 : ℝ) / 83722812703829030202154193417564545585497723437305231494969682261605000000000000000000000000000000000) * (((26283 : ℝ) / 5000) - x) ^ 8 +
      ((5425114739397715224923614948422943154258969056617345001534454207128744072882059158199945573584813 : ℝ) / 523267579398931438763463708859778409909360771483157696843560514135031250000000000000000000000000) * (x - ((272739387 : ℝ) / 100000000)) ^ 1 * (((26283 : ℝ) / 5000) - x) ^ 7 +
      ((2666682401519045416557738430643665230875970179392123552019088282625014826452821906451498900619 : ℝ) / 52326757939893143876346370885977840990936077148315769684356051413503125000000000000000000000) * (x - ((272739387 : ℝ) / 100000000)) ^ 2 * (((26283 : ℝ) / 5000) - x) ^ 6 +
      ((186397158198762670348997646737216442691657748141354505026502013198377619055292615283982171 : ℝ) / 1308168948497328596908659272149446024773401928707894242108901285337578125000000000000000) * (x - ((272739387 : ℝ) / 100000000)) ^ 3 * (((26283 : ℝ) / 5000) - x) ^ 5 +
      ((12967316601500518391428019092481561250136942728296323721418476068610593945031741968939 : ℝ) / 52326757939893143876346370885977840990936077148315769684356051413503125000000000000) * (x - ((272739387 : ℝ) / 100000000)) ^ 4 * (((26283 : ℝ) / 5000) - x) ^ 4 +
      ((897740757458586654019148327639142917957500828169676915656872496020426313060045051 : ℝ) / 3270422371243321492271648180373615061933504821769735605272253213343945312500000) * (x - ((272739387 : ℝ) / 100000000)) ^ 5 * (((26283 : ℝ) / 5000) - x) ^ 3 +
      ((61844047066518620649903087413351688667744606702484744825939405639437769766859 : ℝ) / 327042237124332149227164818037361506193350482176973560527225321334394531250) * (x - ((272739387 : ℝ) / 100000000)) ^ 6 * (((26283 : ℝ) / 5000) - x) ^ 2 +
      ((19377993160078773132111527928664562065492560521608996181690346274304522656 : ℝ) / 261633789699465719381731854429889204954680385741578848421780257067515625) * (x - ((272739387 : ℝ) / 100000000)) ^ 7 * (((26283 : ℝ) / 5000) - x) ^ 1 +
      ((5285861686395268668803998214416836317749101542809767006654180106649216 : ℝ) / 418614063519145151010770967087822727927488617186526157474848411308025) * (x - ((272739387 : ℝ) / 100000000)) ^ 8 := by
    unfold acklamTailW acklamTailNum acklamTailDen acklamTailNumD acklamTailDenD
    ring
  have t0 : (0:ℝ) ≤ ((76915967906556714824509643847111069720529022810858933348872862167872373656240925479927691879506530557 : ℝ) / 83722812703829030202154193417564545585497723437305231494969682261605000000000000000000000000000000000) * (((26283 : ℝ) / 5000) - x) ^ 8 :=
      mul_nonneg (by norm_num) (pow_nonneg hy 8)
  have t1 : (0:ℝ) ≤ ((5425114739397715224923614948422943154258969056617345001534454207128744072882059158199945573584813 : ℝ) / 523267579398931438763463708859778409909360771483157696843560514135031250000000000000000000000000) * (x - ((272739387 : ℝ) / 100000000)) ^ 1 * (((26283 : ℝ) / 5000) - x) ^ 7 :=
      mul_nonneg (mul_nonneg (by norm_num) (pow_nonneg hx 1)) (pow_nonneg hy 7)
  have t2 : (0:ℝ) ≤ ((2666682401519045416557738430643665230875970179392123552019088282625014826452821906451498900619 : ℝ) / 52326757939893143876346370885977840990936077148315769684356051413503125000000000000000000000) * (x - ((272739387 : ℝ) / 100000000)) ^ 2 * (((26283 : ℝ) / 5000) - x) ^ 6 :=
      mul_nonneg (mul_nonneg (by norm_num) (pow_nonneg hx 2)) (pow_nonneg hy 6)
  have t3 : (0:ℝ) ≤ ((186397158198762670348997646737216442691657748141354505026502013198377619055292615283982171 : ℝ) / 1308168948497328596908659272149446024773401928707894242108901285337578125000000000000000) * (x - ((272739387 : ℝ) / 100000000)) ^ 3 * (((26283 : ℝ) / 5000) - x) ^ 5 :=
      mul_nonneg (mul_nonneg (by norm_num) (pow_nonneg hx 3)) (pow_nonneg hy 5)
  have t4 : (0:ℝ) ≤ ((12967316601500518391428019092481561250136942728296323721418476068610593945031741968939 : ℝ) / 52326757939893143876346370885977840990936077148315769684356051413503125000000000000) * (x - ((272739387 : ℝ) / 100000000)) ^ 4 * (((26283 : ℝ) / 5000) - x) ^ 4 :=
      mul_nonneg (mul_nonneg (by norm_num) (pow_nonneg hx 4)) (pow_nonneg hy 4)
  have t5 : (0:ℝ) ≤ ((897740757458586654019148327639142917957500828169676915656872496020426313060045051 : ℝ) / 3270422371243321492271648180373615061933504821769735605272253213343945312500000) * (x - ((272739387 : ℝ) / 100000000)) ^ 5 * (((26283 : ℝ) / 5000) - x) ^ 3 :=
      mul_nonneg (mul_nonneg (by norm_num) (pow_nonneg hx 5)) (pow_nonneg hy 3)
  have t6 : (0:ℝ) ≤ ((61844047066518620649903087413351688667744606702484744825939405639437769766859 : ℝ) / 327042237124332149227164818037361506193350482176973560527225321334394531250) * (x - ((272739387 : ℝ) / 100000000)) ^ 6 * (((26283 : ℝ) / 5000) - x) ^ 2 :=
      mul_nonneg (mul_nonneg (by norm_num) (pow_nonneg hx 6)) (pow_nonneg hy 2)
  have t7 : (0:ℝ) ≤ ((19377993160078773132111527928664562065492560521608996181690346274304522656 : ℝ) / 261633789699465719381731854429889204954680385741578848421780257067515625) * (x - ((272739387 : ℝ) / 100000000)) ^ 7 * (((26283 : ℝ) / 5000) - x) ^ 1 :=
      mul_nonneg (mul_nonneg (by norm_num) (pow_nonneg hx 7)) (pow_nonneg hy 1)
  have t8 : (0:ℝ) ≤ ((5285861686395268668803998214416836317749101542809767006654180106649216 : ℝ) / 418614063519145151010770967087822727927488617186526157474848411308025) * (x - ((272739387 : ℝ) / 100000000)) ^ 8 :=
      mul_nonneg (by norm_num) (pow_nonneg hx 8)
  rcases lt_or_eq_of_le h1 with hlt | heq
  · have hstrict : (0:ℝ) < ((76915967906556714824509643847111069720529022810858933348872862167872373656240925479927691879506530557 : ℝ) / 83722812703829030202154193417564545585497723437305231494969682261605000000000000000000000000000000000) * (((26283 : ℝ) / 5000) - x) ^ 8 :=
      mul_pos (by norm_num) (pow_pos (by linarith) 8)
    linarith [key, t0, t1, t2, t3, t4, t5, t6, t7, t8]
  · have hstrict : (0:ℝ) < ((5285861686395268668803998214416836317749101542809767006654180106649216 : ℝ) / 418614063519145151010770967087822727927488617186526157474848411308025) * (x - ((272739387 : ℝ) / 100000000)) ^ 8 :=
      mul_pos (by norm_num) (pow_pos (by linarith) 8)
    linarith [key, t0, t1, t2, t3, t4, t5, t6, t7, t8]

/-! ### Monotonicity of the Acklam branches -/

theorem hasDerivAt_acklamCentralNum (x : ℝ) : HasDerivAt acklamCentralNum (acklamCentralNumD x) x := by
  have h0 : HasDerivAt (fun y : ℝ => -39.6968302866538 * y + 220.946098424521) (-39.6968302866538 * 1) x :=
    ((hasDerivAt_id x).const_mul (-39.6968302866538)).add_const 220.946098424521
  have h1 : HasDerivAt (fun y : ℝ => (-39.6968302866538 * y + 220.946098424521) * y + -275.928510446969) ((-39.6968302866538 * 1) * x + (-39.6968302866538 * x + 220.946098424521) * 1) x :=
    (h0.mul (hasDerivAt_id x)).add_const (-275.928510446969)
  have h2 : HasDerivAt (fun y : ℝ => ((-39.6968302866538 * y + 220.946098424521) * y + -275.928510446969) * y + 138.357751867269) (((-39.6968302866538 * 1) * x + (-39.6968302866538 * x + 220.946098424521) * 1) * x + ((-39.6968302866538 * x + 220.946098424521) * x + -275.928510446969) * 1) x :=
    (h1.mul (hasDerivAt_id x)).add_const 138.357751867269
  have h3 : HasDerivAt (fun y : ℝ => (((-39.6968302866538 * y + 220.946098424521) * y + -275.928510446969) * y + 138.357751867269) * y + -30.6647980661472) ((((-39.6968302866538 * 1) * x + (-39.6968302866538 * x + 220.946098424521) * 1) * x + ((-39.6968302866538 * x + 220.946098424521) * x + -275.928510446969) * 1) * x + (((-39.6968302866538 * x + 220.946098424521) * x + -275.928510446969) * x + 138.357751867269) * 1) x :=
    (h2.mul (hasDerivAt_id x)).add_const (-30.6647980661472)
  have h4 : HasDerivAt (fun y : ℝ => ((((-39.6968302866538 * y + 220.946098424521) * y + -275.928510446969) * y + 138.357751867269) * y + -30.6647980661472) * y + 2.50662827745924) (((((-39.6968302866538 * 1) * x + (-39.6968302866538 * x + 220.946098424521) * 1) * x + ((-39.6968302866538 * x + 220.946098424521) * x + -275.928510446969) * 1) * x + (((-39.6968302866538 * x + 220.946098424521) * x + -275.928510446969) * x + 138.357751867269) * 1) * x + ((((-39.6968302866538 * x + 220.946098424521) * x + -275.928510446969) * x + 138.357751867269) * x + -30.6647980661472) * 1) x :=
    (h3.mul (hasDerivAt_id x)).add_const 2.50662827745924
  have e : acklamCentralNumD x = ((((-39.6968302866538 * 1) * x + (-39.6968302866538 * x + 220.946098424521) * 1) * x + ((-39.6968302866538 * x + 220.946098424521) * x + -275.928510446969) * 1) * x + (((-39.6968302866538 * x + 220.946098424521) * x + -275.928510446969) * x + 138.357751867269) * 1) * x + ((((-39.6968302866538 * x + 220.946098424521) * x + -275.928510446969) * x + 138.357751867269) * x + -30.6647980661472) * 1 := by
    unfold acklamCentralNumD
    ring
  rw [e]
  exact h4

theorem hasDerivAt_acklamCentralDen (x : ℝ) : HasDerivAt acklamCentralDen (acklamCentralDenD x) x := by
  have h0 : HasDerivAt (fun y : ℝ => -54.4760987982241 * y + 161.585836858041) (-54.4760987982241 * 1) x :=
    ((hasDerivAt_id x).const_mul (-54.4760987982241)).add_const 161.585836858041
  have h1 : HasDerivAt (fun y : ℝ => (-54.4760987982241 * y + 161.585836858041) * y + -155.698979859887) ((-54.4760987982241 * 1) * x + (-54.4760987982241 * x + 161.585836858041) * 1) x :=
    (h0.mul (hasDerivAt_id x)).add_const (-155.698979859887)
  have h2 : HasDerivAt (fun y : ℝ => ((-54.4760987982241 * y + 161.585836858041) * y + -155.698979859887) * y + 66.8013118877197) (((-54.4760987982241 * 1) * x + (-54.4760987982241 * x + 161.585836858041) * 1) * x + ((-54.4760987982241 * x + 161.585836858041) * x + -155.698979859887) * 1) x :=
    (h1.mul (hasDerivAt_id x)).add_const 66.8013118877197
  have h3 : HasDerivAt (fun y : ℝ => (((-54.4760987982241 * y + 161.585836858041) * y + -155.698979859887) * y + 66.8013118877197) * y + -13.2806815528857) ((((-54.4760987982241 * 1) * x + (-54.4760987982241 * x + 161.585836858041) * 1) * x + ((-54.4760987982241 * x + 161.585836858041) * x + -155.698979859887) * 1) * x + (((-54.4760987982241 * x + 161.585836858041) * x + -155.698979859887) * x + 66.8013118877197) * 1) x :=
    (h2.mul (hasDerivAt_id x)).add_const (-13.2806815528857)
  have h4 : HasDerivAt (fun y : ℝ => ((((-54.4760987982241 * y + 161.585836858041) * y + -155.698979859887) * y + 66.8013118877197) * y + -13.2806815528857) * y + 1) (((((-54.4760987982241 * 1) * x + (-54.4760987982241 * x + 161.585836858041) * 1) * x + ((-54.4760987982241 * x + 161.585836858041) * x + -155.698979859887) * 1) * x + (((-54.4760987982241 * x + 161.585836858041) * x + -155.698979859887) * x + 66.8013118877197) * 1) * x + ((((-54.4760987982241 * x + 161.585836858041) * x + -155.698979859887) * x + 66.8013118877197) * x + -13.2806815528857) * 1) x :=
    (h3.mul (hasDerivAt_id x)).add_const 1
  have e : acklamCentralDenD x = ((((-54.4760987982241 * 1) * x + (-54.4760987982241 * x + 161.585836858041) * 1) * x + ((-54.4760987982241 * x + 161.585836858041) * x + -155.698979859887) * 1) * x + (((-54.4760987982241 * x + 161.585836858041) * x + -155.698979859887) * x + 66.8013118877197) * 1) * x + ((((-54.4760987982241 * x + 161.585836858041) * x + -155.698979859887) * x + 66.8013118877197) * x + -13.2806815528857) * 1 := by
    unfold acklamCentralDenD
    ring
  rw [e]
  exact h4

theorem hasDerivAt_acklamTailNum (x : ℝ) : HasDerivAt acklamTailNum (acklamTailNumD x) x := by
  have h0 : HasDerivAt (fun y : ℝ => -0.00778489400243029 * y + -0.322396458041136) (-0.00778489400243029 * 1) x :=
    ((hasDerivAt_id x).const_mul (-0.00778489400243029)).add_const (-0.322396458041136)
  have h1 : HasDerivAt (fun y : ℝ => (-0.00778489400243029 * y + -0.322396458041136) * y + -2.40075827716184) ((-0.00778489400243029 * 1) * x + (-0.00778489400243029 * x + -0.322396458041136) * 1) x :=
    (h0.mul (hasDerivAt_id x)).add_const (-2.40075827716184)
  have h2 : HasDerivAt (fun y : ℝ => ((-0.00778489400243029 * y + -0.322396458041136) * y + -2.40075827716184) * y + -2.54973253934373) (((-0.00778489400243029 * 1) * x + (-0.00778489400243029 * x + -0.322396458041136) * 1) * x + ((-0.00778489400243029 * x + -0.322396458041136) * x + -2.40075827716184) * 1) x :=
    (h1.mul (hasDerivAt_id x)).add_const (-2.54973253934373)
  have h3 : HasDerivAt (fun y : ℝ => (((-0.00778489400243029 * y + -0.322396458041136) * y + -2.40075827716184) * y + -2.54973253934373) * y + 4.37466414146497) ((((-0.00778489400243029 * 1) * x + (-0.00778489400243029 * x + -0.322396458041136) * 1) * x + ((-0.00778489400243029 * x + -0.322396458041136) * x + -2.40075827716184) * 1) * x + (((-0.00778489400243029 * x + -0.322396458041136) * x + -2.40075827716184) * x + -2.54973253934373) * 1) x :=
    (h2.mul (hasDerivAt_id x)).add_const 4.37466414146497
  have h4 : HasDerivAt (fun y : ℝ => ((((-0.00778489400243029 * y + -0.322396458041136) * y + -2.40075827716184) * y + -2.54973253934373) * y + 4.37466414146497) * y + 2.93816398269878) (((((-0.00778489400243029 * 1) * x + (-0.00778489400243029 * x + -0.322396458041136) * 1) * x + ((-0.00778489400243029 * x + -0.322396458041136) * x + -2.40075827716184) * 1) * x + (((-0.00778489400243029 * x + -0.322396458041136) * x + -2.40075827716184) * x + -2.54973253934373) * 1) * x + ((((-0.00778489400243029 * x + -0.322396458041136) * x + -2.40075827716184) * x + -2.54973253934373) * x + 4.37466414146497) * 1) x :=
    (h3.mul (hasDerivAt_id x)).add_const 2.93816398269878
  have e : acklamTailNumD x = ((((-0.00778489400243029 * 1) * x + (-0.00778489400243029 * x + -0.322396458041136) * 1) * x + ((-0.00778489400243029 * x + -0.322396458041136) * x + -2.40075827716184) * 1) * x + (((-0.00778489400243029 * x + -0.322396458041136) * x + -2.40075827716184) * x + -2.54973253934373) * 1) * x + ((((-0.00778489400243029 * x + -0.322396458041136) * x + -2.40075827716184) * x + -2.54973253934373) * x + 4.37466414146497) * 1 := by
    unfold acklamTailNumD
    ring
  rw [e]
  exact h4

theorem hasDerivAt_acklamTailDen (x : ℝ) : HasDerivAt acklamTailDen (acklamTailDenD x) x := by
  have h0 : HasDerivAt (fun y : ℝ => 0.00778469570904146 * y + 0.32246712907004) (0.00778469570904146 * 1) x :=
    ((hasDerivAt_id x).const_mul 0.00778469570904146).add_const 0.32246712907004
  have h1 : HasDerivAt (fun y : ℝ => (0.00778469570904146 * y + 0.32246712907004) * y + 2.445134137143) ((0.00778469570904146 * 1) * x + (0.00778469570904146 * x + 0.32246712907004) * 1) x :=
    (h0.mul (hasDerivAt_id x)).add_const 2.445134137143
  have h2 : HasDerivAt (fun y : ℝ => ((0.00778469570904146 * y + 0.32246712907004) * y + 2.445134137143) * y + 3.75440866190742) (((0.00778469570904146 * 1) * x + (0.00778469570904146 * x + 0.32246712907004) * 1) * x + ((0.00778469570904146 * x + 0.32246712907004) * x + 2.445134137143) * 1) x :=
    (h1.mul (hasDerivAt_id x)).add_const 3.75440866190742
  have h3 : HasDerivAt (fun y : ℝ => (((0.00778469570904146 * y + 0.32246712907004) * y + 2.445134137143) * y + 3.75440866190742) * y + 1) ((((0.00778469570904146 * 1) * x + (0.00778469570904146 * x + 0.32246712907004) * 1) * x + ((0.00778469570904146 * x + 0.32246712907004) * x + 2.445134137143) * 1) * x + (((0.00778469570904146 * x + 0.32246712907004) * x + 2.445134137143) * x + 3.75440866190742) * 1) x :=
    (h2.mul (hasDerivAt_id x)).add_const 1
  have e : acklamTailDenD x = (((0.00778469570904146 * 1) * x + (0.00778469570904146 * x + 0.32246712907004) * 1) * x + ((0.00778469570904146 * x + 0.32246712907004) * x + 2.445134137143) * 1) * x + (((0.00778469570904146 * x + 0.32246712907004) * x + 2.445134137143) * x + 3.75440866190742) * 1 := by
    unfold acklamTailDenD
    ring
  rw [e]
  exact h3

theorem acklamTailDen_pos (q : ℝ) (h : 0 ≤ q) : 0 < acklamTailDen q := by
  unfold acklamTailDen
  have h1 : (0:ℝ) ≤ 0.00778469570904146 * q := by positivity
  have h2 : (0:ℝ) ≤ (0.00778469570904146 * q + 0.32246712907004) * q := by nlinarith
  have h3 : (0:ℝ) ≤ ((0.00778469570904146 * q + 0.32246712907004) * q + 2.445134137143) * q := by
    nlinarith
  have h4 : (0:ℝ) ≤ (((0.00778469570904146 * q + 0.32246712907004) * q + 2.445134137143) * q +
      3.75440866190742) * q := by nlinarith
  linarith

theorem hasDerivAt_acklamTailRatio (q : ℝ) (hD : acklamTailDen q ≠ 0) :
    HasDerivAt acklamTailRatio (acklamTailW q / (acklamTailDen q) ^ 2) q := by
  have h := (hasDerivAt_acklamTailNum q).div (hasDerivAt_acklamTailDen q) hD
  unfold acklamTailW
  exact h

theorem hasDerivAt_centralNum_sq (q : ℝ) :
    HasDerivAt (fun y : ℝ => acklamCentralNum (y * y)) (acklamCentralNumD (q * q) * (1 * q + q * 1)) q := by
  have hsq : HasDerivAt (fun y : ℝ => y * y) (1 * q + q * 1) q :=
    (hasDerivAt_id q).mul (hasDerivAt_id q)
  have h0 : HasDerivAt (fun y : ℝ => -39.6968302866538 * (y * y) + 220.946098424521) (-39.6968302866538 * (1 * q + q * 1)) q :=
    (hsq.const_mul (-39.6968302866538)).add_const 220.946098424521
  have h1 : HasDerivAt (fun y : ℝ => (-39.6968302866538 * (y * y) + 220.946098424521) * (y * y) + -275.928510446969) ((-39.6968302866538 * (1 * q + q * 1)) * (q * q) + (-39.6968302866538 * (q * q) + 220.946098424521) * (1 * q + q * 1)) q :=
    (h0.mul hsq).add_const (-275.928510446969)
  have h2 : HasDerivAt (fun y : ℝ => ((-39.6968302866538 * (y * y) + 220.946098424521) * (y * y) + -275.928510446969) * (y * y) + 138.357751867269) (((-39.6968302866538 * (1 * q + q * 1)) * (q * q) + (-39.6968302866538 * (q * q) + 220.946098424521) * (1 * q + q * 1)) * (q * q) + ((-39.6968302866538 * (q * q) + 220.946098424521) * (q * q) + -275.928510446969) * (1 * q + q * 1)) q :=
    (h1.mul hsq).add_const 138.357751867269
  have h3 : HasDerivAt (fun y : ℝ => (((-39.6968302866538 * (y * y) + 220.946098424521) * (y * y) + -275.928510446969) * (y * y) + 138.357751867269) * (y * y) + -30.6647980661472) ((((-39.6968302866538 * (1 * q + q * 1)) * (q * q) + (-39.6968302866538 * (q * q) + 220.946098424521) * (1 * q + q * 1)) * (q * q) + ((-39.6968302866538 * (q * q) + 220.946098424521) * (q * q) + -275.928510446969) * (1 * q + q * 1)) * (q * q) + (((-39.6968302866538 * (q * q) + 220.946098424521) * (q * q) + -275.928510446969) * (q * q) + 138.357751867269) * (1 * q + q * 1)) q :=
    (h2.mul hsq).add_const (-30.6647980661472)
  have h4 : HasDerivAt (fun y : ℝ => ((((-39.6968302866538 * (y * y) + 220.946098424521) * (y * y) + -275.928510446969) * (y * y) + 138.357751867269) * (y * y) + -30.6647980661472) * (y * y) + 2.50662827745924) (((((-39.6968302866538 * (1 * q + q * 1)) * (q * q) + (-39.6968302866538 * (q * q) + 220.946098424521) * (1 * q + q * 1)) * (q * q) + ((-39.6968302866538 * (q * q) + 220.946098424521) * (q * q) + -275.928510446969) * (1 * q + q * 1)) * (q * q) + (((-39.6968302866538 * (q * q) + 220.946098424521) * (q * q) + -275.928510446969) * (q * q) + 138.357751867269) * (1 * q + q * 1)) * (q * q) + ((((-39.6968302866538 * (q * q) + 220.946098424521) * (q * q) + -275.928510446969) * (q * q) + 138.357751867269) * (q * q) + -30.6647980661472) * (1 * q + q * 1)) q :=
    (h3.mul hsq).add_const 2.50662827745924
  have e : acklamCentralNumD (q * q) * (1 * q + q * 1) = ((((-39.6968302866538 * (1 * q + q * 1)) * (q * q) + (-39.6968302866538 * (q * q) + 220.946098424521) * (1 * q + q * 1)) * (q * q) + ((-39.6968302866538 * (q * q) + 220.946098424521) * (q * q) + -275.928510446969) * (1 * q + q * 1)) * (q * q) + (((-39.6968302866538 * (q * q) + 220.946098424521) * (q * q) + -275.928510446969) * (q * q) + 138.357751867269) * (1 * q + q * 1)) * (q * q) + ((((-39.6968302866538 * (q * q) + 220.946098424521) * (q * q) + -275.928510446969) * (q * q) + 138.357751867269) * (q * q) + -30.6647980661472) * (1 * q + q * 1) := by
    unfold acklamCentralNumD
    ring
  rw [e]
  exact h4

theorem hasDerivAt_centralDen_sq (q : ℝ) :
    HasDerivAt (fun y : ℝ => acklamCentralDen (y * y)) (acklamCentralDenD (q * q) * (1 * q + q * 1)) q := by
  have hsq : HasDerivAt (fun y : ℝ => y * y) (1 * q + q * 1) q :=
    (hasDerivAt_id q).mul (hasDerivAt_id q)
  have h0 : HasDerivAt (fun y : ℝ => -54.4760987982241 * (y * y) + 161.585836858041) (-54.4760987982241 * (1 * q + q * 1)) q :=
    (hsq.const_mul (-54.4760987982241)).add_const 161.585836858041
  have h1 : HasDerivAt (fun y : ℝ => (-54.4760987982241 * (y * y) + 161.585836858041) * (y * y) + -155.698979859887) ((-54.4760987982241 * (1 * q + q * 1)) * (q * q) + (-54.4760987982241 * (q * q) + 161.585836858041) * (1 * q + q * 1)) q :=
    (h0.mul hsq).add_const (-155.698979859887)
  have h2 : HasDerivAt (fun y : ℝ => ((-54.4760987982241 * (y * y) + 161.585836858041) * (y * y) + -155.698979859887) * (y * y) + 66.8013118877197) (((-54.4760987982241 * (1 * q + q * 1)) * (q * q) + (-54.4760987982241 * (q * q) + 161.585836858041) * (1 * q + q * 1)) * (q * q) + ((-54.4760987982241 * (q * q) + 161.585836858041) * (q * q) + -155.698979859887) * (1 * q + q * 1)) q :=
    (h1.mul hsq).add_const 66.8013118877197
  have h3 : HasDerivAt (fun y : ℝ => (((-54.4760987982241 * (y * y) + 161.585836858041) * (y * y) + -155.698979859887) * (y * y) + 66.8013118877197) * (y * y) + -13.2806815528857) ((((-54.4760987982241 * (1 * q + q * 1)) * (q * q) + (-54.4760987982241 * (q * q) + 161.585836858041) * (1 * q + q * 1)) * (q * q) + ((-54.4760987982241 * (q * q) + 161.585836858041) * (q * q) + -155.698979859887) * (1 * q + q * 1)) * (q * q) + (((-54.4760987982241 * (q * q) + 161.585836858041) * (q * q) + -155.698979859887) * (q * q) + 66.8013118877197) * (1 * q + q * 1)) q :=
    (h2.mul hsq).add_const (-13.2806815528857)
  have h4 : HasDerivAt (fun y : ℝ => ((((-54.4760987982241 * (y * y) + 161.585836858041) * (y * y) + -155.698979859887) * (y * y) + 66.8013118877197) * (y * y) + -13.2806815528857) * (y * y) + 1) (((((-54.4760987982241 * (1 * q + q * 1)) * (q * q) + (-54.4760987982241 * (q * q) + 161.585836858041) * (1 * q + q * 1)) * (q * q) + ((-54.4760987982241 * (q * q) + 161.585836858041) * (q * q) + -155.698979859887) * (1 * q + q * 1)) * (q * q) + (((-54.4760987982241 * (q * q) + 161.585836858041) * (q * q) + -155.698979859887) * (q * q) + 66.8013118877197) * (1 * q + q * 1)) * (q * q) + ((((-54.4760987982241 * (q * q) + 161.585836858041) * (q * q) + -155.698979859887) * (q * q) + 66.8013118877197) * (q * q) + -13.2806815528857) * (1 * q + q * 1)) q :=
    (h3.mul hsq).add_const 1
  have e : acklamCentralDenD (q * q) * (1 * q + q * 1) = ((((-54.4760987982241 * (1 * q + q * 1)) * (q * q) + (-54.4760987982241 * (q * q) + 161.585836858041) * (1 * q + q * 1)) * (q * q) + ((-54.4760987982241 * (q * q) + 161.585836858041) * (q * q) + -155.698979859887) * (1 * q + q * 1)) * (q * q) + (((-54.4760987982241 * (q * q) + 161.585836858041) * (q * q) + -155.698979859887) * (q * q) + 66.8013118877197) * (1 * q + q * 1)) * (q * q) + ((((-54.4760987982241 * (q * q) + 161.585836858041) * (q * q) + -155.698979859887) * (q * q) + 66.8013118877197) * (q * q) + -13.2806815528857) * (1 * q + q * 1) := by
    unfold acklamCentralDenD
    ring
  rw [e]
  exact h4

theorem hasDerivAt_acklamCentralRatio (q : ℝ) (hB : acklamCentralDen (q * q) ≠ 0) :
    HasDerivAt acklamCentralRatio (acklamCentralP (q * q) / (acklamCentralDen (q * q)) ^ 2) q := by
  have hA := hasDerivAt_centralNum_sq q
  have hB2 := hasDerivAt_centralDen_sq q
  have hnum : HasDerivAt (fun y : ℝ => acklamCentralNum (y * y) * y)
      (acklamCentralNumD (q * q) * (1 * q + q * 1) * q + acklamCentralNum (q * q) * 1) q :=
    hA.mul (hasDerivAt_id q)
  have h := hnum.div hB2 hB
  have e : acklamCentralP (q * q) / acklamCentralDen (q * q) ^ 2 =
      ((acklamCentralNumD (q * q) * (1 * q + q * 1) * q + acklamCentralNum (q * q) * 1) *
          acklamCentralDen (q * q) -
        acklamCentralNum (q * q) * q * (acklamCentralDenD (q * q) * (1 * q + q * 1))) /
        acklamCentralDen (q * q) ^ 2 := by
    unfold acklamCentralP
    ring
  rw [e]
  exact h

theorem central_den_ne {q : ℝ} (h1 : -(1903 / 4000 : ℝ) ≤ q) (h2 : q ≤ 1903 / 4000) :
    acklamCentralDen (q * q) ≠ 0 := by
  have hr1 : (0:ℝ) ≤ q * q := mul_self_nonneg q
  have hr2 : q * q ≤ (3621409 : ℝ) / 16000000 := by nlinarith
  exact ne_of_gt (acklamCentralDen_pos (q * q) hr1 hr2)

theorem central_strictMonoOn :
    StrictMonoOn acklamCentralRatio (Set.Icc (-(1903 / 4000 : ℝ)) (1903 / 4000)) := by
  apply strictMonoOn_of_deriv_pos (convex_Icc _ _)
  · intro x hx
    exact (hasDerivAt_acklamCentralRatio x (central_den_ne hx.1 hx.2)).continuousAt.continuousWithinAt
  · intro x hx
    rw [interior_Icc] at hx
    have hne := central_den_ne (le_of_lt hx.1) (le_of_lt hx.2)
    rw [(hasDerivAt_acklamCentralRatio x hne).deriv]
    have hr1 : (0:ℝ) ≤ x * x := mul_self_nonneg x
    have hr2 : x * x ≤ (3621409 : ℝ) / 16000000 := by nlinarith [hx.1, hx.2]
    exact div_pos (acklamCentralP_pos (x * x) hr1 hr2)
      (pow_pos (acklamCentralDen_pos (x * x) hr1 hr2) 2)

theorem tail_strictAntiOn :
    StrictAntiOn acklamTailRatio (Set.Icc ((272739387 : ℝ) / 100000000) (26283 / 5000)) := by
  apply strictAntiOn_of_deriv_neg (convex_Icc _ _)
  · intro x hx
    have hD := acklamTailDen_pos x (by linarith [hx.1] : (0:ℝ) ≤ x)
    exact (hasDerivAt_acklamTailRatio x (ne_of_gt hD)).continuousAt.continuousWithinAt
  · intro x hx
    rw [interior_Icc] at hx
    have hD := acklamTailDen_pos x (by linarith [hx.1] : (0:ℝ) ≤ x)
    rw [(hasDerivAt_acklamTailRatio x (ne_of_gt hD)).deriv]
    apply div_neg_of_neg_of_pos
    · exact acklamTailW_neg x (le_of_lt hx.1) (le_of_lt hx.2)
    · exact pow_pos hD 2

/-! ### Numeric log bounds and seam certificates -/

set_option maxHeartbeats 1600000 in
theorem log_two_lb : ((14357776821749082238835653799809 : ℝ) / 20713893418928770712373244723200) ≤ Real.log 2 := by
  have hx : |(1/2 : ℝ)| < 1 := by
    rw [abs_of_pos] <;> norm_num
  have h := Real.abs_log_sub_add_sum_range_le hx 45
  have hs : (∑ i ∈ Finset.range 45, ((1/2 : ℝ)) ^ (i + 1) / (i + 1)) = ((14357776821749670963095578951159 : ℝ) / 20713893418928770712373244723200) := by
    norm_num [Finset.sum_range_succ]
  have hlog : Real.log (1 - 1/2) = -Real.log 2 := by
    rw [show (1 : ℝ) - 1/2 = 2⁻¹ by norm_num, Real.log_inv]
  rw [hs, hlog] at h
  have herr : |(1/2 : ℝ)| ^ (45 + 1) / (1 - |1/2|) = ((1 : ℝ) / 35184372088832) := by
    rw [abs_of_pos] <;> norm_num
  rw [herr] at h
  have habs := abs_le.mp h
  linarith [habs.1]

set_option maxHeartbeats 1600000 in
theorem log_125_97_lb : ((44348306633964676439400313502195534130357196663028 : ℝ) / 174873123794105911343876869068481028079986572265625) ≤ Real.log (125 / 97) := by
  have hx : |(28/125 : ℝ)| < 1 := by
    rw [abs_of_pos] <;> norm_num
  have h := Real.abs_log_sub_add_sum_range_le hx 20
  have hs : (∑ i ∈ Finset.range 20, ((28/125 : ℝ)) ^ (i + 1) / (i + 1)) = ((457199037463606003187109130604575957146109648244 : ℝ) / 1802815709217586714885328547097742557525634765625) := by
    norm_num [Finset.sum_range_succ]
  have hlog : Real.log (1 - 28/125) = -Real.log (125/97) := by
    rw [show (1 : ℝ) - 28/125 = ((125:ℝ)/97)⁻¹ by norm_num, Real.log_inv]
  rw [hs, hlog] at h
  have herr : |(28/125 : ℝ)| ^ (20 + 1) / (1 - |28/125|) = ((2456510688823056210273111113728 : ℝ) / 84134088584875144078978337347507476806640625) := by
    rw [abs_of_pos] <;> norm_num
  rw [herr] at h
  have habs := abs_le.mp h
  linarith [habs.1]

theorem log_4000_97_lb : ((74386773221135769 : ℝ) / 20000000000000000) ≤ Real.log (4000 / 97) := by
  have hsplit : Real.log (4000 / 97) = 5 * Real.log 2 + Real.log (125 / 97) := by
    rw [show (4000 / 97 : ℝ) = 2 ^ 5 * (125 / 97) by norm_num,
      Real.log_mul (by norm_num) (by norm_num), Real.log_pow]
    norm_num
  rw [hsplit]
  have h1 := log_two_lb
  have h2 := log_125_97_lb
  have hcmp : ((74386773221135769 : ℝ) / 20000000000000000) ≤ 5 * ((14357776821749082238835653799809 : ℝ) / 20713893418928770712373244723200) + ((44348306633964676439400313502195534130357196663028 : ℝ) / 174873123794105911343876869068481028079986572265625) := by norm_num
  linarith

set_option maxHeartbeats 800000 in
theorem log_five_fourth_ub : Real.log (5 / 4) ≤ ((302028284603 : ℝ) / 1353515625000) := by
  have hx : |(1/5 : ℝ)| < 1 := by
    rw [abs_of_pos] <;> norm_num
  have h := Real.abs_log_sub_add_sum_range_le hx 12
  have hs : (∑ i ∈ Finset.range 12, ((1/5 : ℝ)) ^ (i + 1) / (i + 1)) = ((302028283217 : ℝ) / 1353515625000) := by
    norm_num [Finset.sum_range_succ]
  have hlog : Real.log (1 - 1/5) = -Real.log (5/4) := by
    rw [show (1 : ℝ) - 1/5 = ((5:ℝ)/4)⁻¹ by norm_num, Real.log_inv]
  rw [hs, hlog] at h
  have herr : |(1/5 : ℝ)| ^ (12 + 1) / (1 - |1/5|) = ((1 : ℝ) / 976562500) := by
    rw [abs_of_pos] <;> norm_num
  rw [herr] at h
  have habs := abs_le.mp h
  linarith [habs.2]

theorem log_ten_ub : Real.log 10 ≤ ((6233169807031 : ℝ) / 2707031250000) := by
  have hsplit : Real.log 10 = 3 * Real.log 2 + Real.log (5 / 4) := by
    rw [show (10 : ℝ) = 2 ^ 3 * (5 / 4) by norm_num,
      Real.log_mul (by norm_num) (by norm_num), Real.log_pow]
    norm_num
  rw [hsplit]
  have h1 := Real.log_two_lt_d9
  have h2 := log_five_fourth_ub
  nlinarith [h1, h2]

theorem seam_cert :
    acklamTailRatio ((272739387 : ℝ) / 100000000) ≤ acklamCentralRatio (-(1903 / 4000)) := by
  unfold acklamTailRatio acklamTailNum acklamTailDen acklamCentralRatio acklamCentralNum
    acklamCentralDen
  rw [div_le_div_iff (by norm_num) (by norm_num)]
  norm_num

theorem Rq0_neg : acklamTailRatio ((272739387 : ℝ) / 100000000) < 0 := by
  unfold acklamTailRatio acklamTailNum acklamTailDen
  apply div_neg_of_neg_of_pos <;> norm_num

theorem R312_gt : (-4 : ℝ) < acklamTailRatio (78 / 25) := by
  unfold acklamTailRatio acklamTailNum acklamTailDen
  rw [lt_div_iff (by norm_num)]
  norm_num

theorem R354_gt : (-4 : ℝ) < acklamTailRatio (177 / 50) := by
  unfold acklamTailRatio acklamTailNum acklamTailDen
  rw [lt_div_iff (by norm_num)]
  norm_num

/-! ### Monotonicity of the assembled inverse CDF approximation -/

theorem q_le_qhi {p : ℝ} (h1 : 1e-6 ≤ p) (h2 : p < 1) :
    Real.sqrt (-2 * Real.log p) ≤ 26283 / 5000 := by
  rw [show (26283 / 5000 : ℝ) = Real.sqrt ((26283 / 5000) ^ 2) from
    (Real.sqrt_sq (by norm_num)).symm]
  apply Real.sqrt_le_sqrt
  have hlp : Real.log 1e-6 ≤ Real.log p :=
    (Real.log_le_log_iff (by norm_num) (by linarith)).mpr h1
  have hl6 : Real.log (1e-6 : ℝ) = -(6 * Real.log 10) := by
    rw [show (1e-6 : ℝ) = ((10 : ℝ) ^ 6)⁻¹ by norm_num, Real.log_inv, Real.log_pow]
    norm_num
  have h10 := log_ten_ub
  rw [hl6] at hlp
  nlinarith

theorem q_gt_q0 {p : ℝ} (h1 : 0 < p) (h2 : p < 0.02425) :
    (272739387 : ℝ) / 100000000 < Real.sqrt (-2 * Real.log p) := by
  have hlog : Real.log p < Real.log 0.02425 := Real.log_lt_log h1 h2
  have hv : Real.log (0.02425 : ℝ) = -Real.log (4000 / 97) := by
    rw [show (0.02425 : ℝ) = ((4000 : ℝ) / 97)⁻¹ by norm_num, Real.log_inv]
  have h40 := log_4000_97_lb
  have harg : ((272739387 : ℝ) / 100000000) ^ 2 < -2 * Real.log p := by
    rw [hv] at hlog
    nlinarith
  rw [show (272739387 : ℝ) / 100000000 =
    Real.sqrt (((272739387 : ℝ) / 100000000) ^ 2) from (Real.sqrt_sq (by norm_num)).symm]
  exact Real.sqrt_lt_sqrt (by positivity) harg

theorem q_antitone_strict {p1 p2 : ℝ} (h0 : 0 < p1) (h12 : p1 < p2) (h2 : p2 < 1) :
    Real.sqrt (-2 * Real.log p2) < Real.sqrt (-2 * Real.log p1) := by
  have hl := Real.log_lt_log h0 h12
  have hp2 : Real.log p2 < 0 := Real.log_neg (by linarith) h2
  apply Real.sqrt_lt_sqrt (by nlinarith) (by nlinarith)

theorem core_tail_eq {p : ℝ} (h : p < 0.02425) :
    inverseNormalCDFCore p = acklamTailRatio (Real.sqrt (-2 * Real.log p)) := by
  unfold inverseNormalCDFCore
  rw [if_pos h]

theorem core_central_eq {p : ℝ} (h1 : ¬ p < 0.02425) (h2 : ¬ 1 - 0.02425 < p) :
    inverseNormalCDFCore p = acklamCentralRatio (p - 0.5) := by
  unfold inverseNormalCDFCore
  rw [if_neg h1, if_neg h2]

theorem core_hitail_eq {p : ℝ} (h1 : ¬ p < 0.02425) (h2 : 1 - 0.02425 < p) :
    inverseNormalCDFCore p = -(acklamTailRatio (Real.sqrt (-2 * Real.log (1 - p)))) := by
  unfold inverseNormalCDFCore
  rw [if_neg h1, if_pos h2]

theorem centralRatio_neg (q : ℝ) : acklamCentralRatio (-q) = -acklamCentralRatio q := by
  unfold acklamCentralRatio
  rw [neg_mul_neg]
  ring

theorem core_symm {p : ℝ} (h1 : 0 < p) (h2 : p < 1) :
    inverseNormalCDFCore (1 - p) = -inverseNormalCDFCore p := by
  rcases lt_or_le p 0.02425 with hc | hc
  · rw [core_hitail_eq (by linarith) (by linarith), core_tail_eq hc,
      show (1 : ℝ) - (1 - p) = p by ring]
  · rcases le_or_lt p (1 - 0.02425) with hd | hd
    · rw [core_central_eq (by linarith) (by linarith),
        core_central_eq (not_lt.mpr hc) (not_lt.mpr hd),
        show (1 - p) - 0.5 = -(p - 0.5) by ring, centralRatio_neg]
    · rw [core_tail_eq (by linarith), core_hitail_eq (not_lt.mpr hc) hd, neg_neg]

theorem core_neg_of_lt_half {p : ℝ} (h1 : 1e-6 ≤ p) (h2 : p < 0.5) :
    inverseNormalCDFCore p < 0 := by
  rcases lt_or_le p 0.02425 with hc | hc
  · rw [core_tail_eq hc]
    have hq0 : (272739387 : ℝ) / 100000000 < Real.sqrt (-2 * Real.log p) :=
      q_gt_q0 (by linarith) hc
    have hqhi : Real.sqrt (-2 * Real.log p) ≤ 26283 / 5000 := q_le_qhi h1 (by linarith)
    have ha := tail_strictAntiOn (Set.mem_Icc.mpr ⟨le_refl _, by norm_num⟩)
      (Set.mem_Icc.mpr ⟨le_of_lt hq0, hqhi⟩) hq0
    linarith [Rq0_neg]
  · rw [core_central_eq (not_lt.mpr hc) (not_lt.mpr (by linarith))]
    unfold acklamCentralRatio
    have hsq : (p - 0.5) * (p - 0.5) ≤ 3621409 / 16000000 := by
      nlinarith [mul_nonneg (show (0:ℝ) ≤ p - 0.5 + 1903 / 4000 by linarith)
        (show (0:ℝ) ≤ 1903 / 4000 - (p - 0.5) by linarith)]
    have hA := acklamCentralNum_pos ((p - 0.5) * (p - 0.5)) (mul_self_nonneg _) hsq
    have hB := acklamCentralDen_pos ((p - 0.5) * (p - 0.5)) (mul_self_nonneg _) hsq
    exact div_neg_of_neg_of_pos (mul_neg_of_pos_of_neg hA (by linarith)) hB

theorem core_pos_of_gt_half {p : ℝ} (h1 : 0.5 < p) (h2 : p ≤ 1 - 1e-6) :
    0 < inverseNormalCDFCore p := by
  have hs := core_symm (show (0:ℝ) < p by linarith) (by linarith)
  have hn := core_neg_of_lt_half (show (1e-6 : ℝ) ≤ 1 - p by linarith) (by linarith)
  linarith

theorem core_half : inverseNormalCDFCore 0.5 = 0 := by
  rw [core_central_eq (by norm_num) (by norm_num)]
  unfold acklamCentralRatio
  norm_num

theorem core_mono_low {p1 p2 : ℝ} (h1 : 1e-6 ≤ p1) (h12 : p1 < p2) (h2 : p2 ≤ 0.5) :
    inverseNormalCDFCore p1 < inverseNormalCDFCore p2 := by
  rcases lt_or_le p2 0.02425 with hc2 | hc2
  · rw [core_tail_eq (by linarith), core_tail_eq hc2]
    have hq12 : Real.sqrt (-2 * Real.log p2) < Real.sqrt (-2 * Real.log p1) :=
      q_antitone_strict (by linarith) h12 (by linarith)
    have hm2 : Real.sqrt (-2 * Real.log p2) ∈
        Set.Icc ((272739387 : ℝ) / 100000000) (26283 / 5000) :=
      Set.mem_Icc.mpr ⟨le_of_lt (q_gt_q0 (by linarith) hc2), q_le_qhi (by linarith) (by linarith)⟩
    have hm1 : Real.sqrt (-2 * Real.log p1) ∈
        Set.Icc ((272739387 : ℝ) / 100000000) (26283 / 5000) :=
      Set.mem_Icc.mpr ⟨le_of_lt (q_gt_q0 (by linarith) (by linarith)), q_le_qhi h1 (by linarith)⟩
    exact tail_strictAntiOn hm2 hm1 hq12
  · rcases lt_or_le p1 0.02425 with hc1 | hc1
    · rw [core_tail_eq hc1, core_central_eq (not_lt.mpr hc2) (not_lt.mpr (by linarith))]
      have hq1 : (272739387 : ℝ) / 100000000 < Real.sqrt (-2 * Real.log p1) :=
        q_gt_q0 (by linarith) hc1
      have hq1u : Real.sqrt (-2 * Real.log p1) ≤ 26283 / 5000 := q_le_qhi h1 (by linarith)
      have hRq := tail_strictAntiOn (Set.mem_Icc.mpr ⟨le_refl _, by norm_num⟩)
        (Set.mem_Icc.mpr ⟨le_of_lt hq1, hq1u⟩) hq1
      have hVc : acklamCentralRatio (-(1903 / 4000)) ≤ acklamCentralRatio (p2 - 0.5) :=
        central_strictMonoOn.monotoneOn
          (Set.mem_Icc.mpr ⟨le_refl _, by norm_num⟩)
          (Set.mem_Icc.mpr ⟨by linarith, by linarith⟩)
          (by linarith)
      linarith [seam_cert]
    · rw [core_central_eq (not_lt.mpr hc1) (not_lt.mpr (by linarith)),
        core_central_eq (not_lt.mpr hc2) (not_lt.mpr (by linarith))]
      exact central_strictMonoOn
        (Set.mem_Icc.mpr ⟨by linarith, by linarith⟩)
        (Set.mem_Icc.mpr ⟨by linarith, by linarith⟩) (by linarith)

theorem core_strictMono {p1 p2 : ℝ} (h1 : 1e-6 ≤ p1) (h12 : p1 < p2)
    (h2 : p2 ≤ 1 - 1e-6) :
    inverseNormalCDFCore p1 < inverseNormalCDFCore p2 := by
  rcases le_or_lt p2 0.5 with hh | hh
  · exact core_mono_low h1 h12 hh
  · rcases lt_or_le p1 0.5 with hg | hg
    · have ha := core_neg_of_lt_half h1 hg
      have hb := core_pos_of_gt_half hh h2
      linarith
    · rcases eq_or_lt_of_le hg with heq | hlt
      · rw [← heq, core_half]
        exact core_pos_of_gt_half hh h2
      · have e1 := core_symm (show (0:ℝ) < p1 by linarith) (by linarith)
        have e2 := core_symm (show (0:ℝ) < p2 by linarith) (by linarith)
        have hm := core_mono_low (show (1e-6 : ℝ) ≤ 1 - p2 by linarith)
          (show 1 - p2 < 1 - p1 by linarith) (show 1 - p1 ≤ 0.5 by linarith)
        linarith

theorem core_monotone {p1 p2 : ℝ} (h1 : 1e-6 ≤ p1) (h12 : p1 ≤ p2)
    (h2 : p2 ≤ 1 - 1e-6) :
    inverseNormalCDFCore p1 ≤ inverseNormalCDFCore p2 := by
  rcases eq_or_lt_of_le h12 with heq | hlt
  · rw [heq]
  · exact le_of_lt (core_strictMono h1 hlt h2)

/-! ### The split-normal elevation map: range and monotonicity -/

theorem clamp_sym_nonpos {z s : ℝ} (hs : 0 ≤ s) (hz : z ≤ 0) : clamp z (-s) s ≤ 0 := by
  unfold clamp
  exact max_le (by linarith) (le_trans (min_le_right _ _) hz)

theorem clamp_sym_nonneg {z s : ℝ} (hs : 0 ≤ s) (hz : 0 ≤ z) : 0 ≤ clamp z (-s) s := by
  unfold clamp
  exact le_max_of_le_right (le_min hs hz)

theorem elevPair_fst_mem (u stdDevs : ℝ) :
    LOWEST_ELEVATION_LIMIT ≤ (elevPair u stdDevs).1 ∧
      (elevPair u stdDevs).1 ≤ HIGHEST_ELEVATION_LIMIT := by
  have hLH : LOWEST_ELEVATION_LIMIT ≤ HIGHEST_ELEVATION_LIMIT := by
    unfold LOWEST_ELEVATION_LIMIT HIGHEST_ELEVATION_LIMIT
    norm_num
  unfold elevPair
  dsimp only
  split_ifs with hc
  · exact clamp_mem _ _ _ hLH
  · exact clamp_mem _ _ _ hLH

theorem elevPair_fst_mono {u1 u2 : ℝ} (h12 : u1 ≤ u2) :
    (elevPair u1 STD_DEVS).1 ≤ (elevPair u2 STD_DEVS).1 := by
  have huu : clamp u1 (1e-6 : ℝ) (1 - 1e-6) ≤ clamp u2 (1e-6 : ℝ) (1 - 1e-6) :=
    clamp_mono _ _ h12
  have hWval : |LOWEST_ELEVATION_LIMIT| / STD_DEVS /
      (|LOWEST_ELEVATION_LIMIT| / STD_DEVS + HIGHEST_ELEVATION_LIMIT / STD_DEVS)
      = (16404 : ℝ) / 65089 := by
    unfold LOWEST_ELEVATION_LIMIT HIGHEST_ELEVATION_LIMIT STD_DEVS
    rw [abs_of_nonpos (by norm_num)]
    norm_num
  have hsigL : |LOWEST_ELEVATION_LIMIT| / STD_DEVS = (4101 : ℝ) := by
    unfold LOWEST_ELEVATION_LIMIT STD_DEVS
    rw [abs_of_nonpos (by norm_num)]
    norm_num
  have hsigR : HIGHEST_ELEVATION_LIMIT / STD_DEVS = (48685 : ℝ) / 4 := by
    unfold HIGHEST_ELEVATION_LIMIT STD_DEVS
    norm_num
  have hS : (0 : ℝ) ≤ STD_DEVS := by
    unfold STD_DEVS
    norm_num
  unfold elevPair
  dsimp only
  rw [hWval, hsigL, hsigR]
  rcases lt_or_le (clamp u1 (1e-6 : ℝ) (1 - 1e-6)) ((16404 : ℝ) / 65089) with hc1 | hc1
  · rcases lt_or_le (clamp u2 (1e-6 : ℝ) (1 - 1e-6)) ((16404 : ℝ) / 65089) with hc2 | hc2
    · rw [if_pos hc1, if_pos hc2]
      dsimp only
      apply clamp_mono
      apply add_le_add_left
      apply mul_le_mul_of_nonneg_left _ (by norm_num : (0 : ℝ) ≤ 4101)
      apply clamp_mono
      apply core_monotone
      · exact (clamp_mem _ _ _ (by norm_num)).1
      · exact clamp_mono _ _ ((div_le_div_iff_of_pos_right (by norm_num)).mpr huu)
      · exact le_trans (clamp_mem _ _ _ (by norm_num)).2 (by norm_num)
    · rw [if_pos hc1, if_neg (not_lt.mpr hc2)]
      dsimp only
      have hz1 : inverseNormalCDFCore (clamp (clamp u1 (1e-6 : ℝ) (1 - 1e-6) /
          (2 * (16404 / 65089))) 1e-6 (0.5 - 1e-6)) < 0 := by
        apply core_neg_of_lt_half
        · exact (clamp_mem _ _ _ (by norm_num)).1
        · exact lt_of_le_of_lt (clamp_mem _ _ _ (by norm_num)).2 (by norm_num)
      have hz2 : 0 < inverseNormalCDFCore (clamp (0.5 +
          (clamp u2 (1e-6 : ℝ) (1 - 1e-6) - 16404 / 65089) / (2 * (1 - 16404 / 65089)))
          (0.5 + 1e-6) (1 - 1e-6)) := by
        apply core_pos_of_gt_half
        · exact lt_of_lt_of_le (by norm_num) (clamp_mem _ _ _ (by norm_num)).1
        · exact (clamp_mem _ _ _ (by norm_num)).2
      apply clamp_mono
      have t1 := clamp_sym_nonpos hS (le_of_lt hz1)
      have t2 := clamp_sym_nonneg hS (le_of_lt hz2)
      linarith
  · have hc2 : ¬ clamp u2 (1e-6 : ℝ) (1 - 1e-6) < (16404 : ℝ) / 65089 :=
      not_lt.mpr (le_trans hc1 huu)
    rw [if_neg (not_lt.mpr hc1), if_neg hc2]
    dsimp only
    apply clamp_mono
    apply add_le_add_left
    apply mul_le_mul_of_nonneg_left _ (by norm_num : (0 : ℝ) ≤ 48685 / 4)
    apply clamp_mono
    apply core_monotone
    · exact le_trans (by norm_num) (clamp_mem _ _ _ (by norm_num)).1
    · apply clamp_mono
      apply add_le_add_left
      exact (div_le_div_iff_of_pos_right (by norm_num)).mpr (by linarith)
    · exact (clamp_mem _ _ _ (by norm_num)).2

/-! ### A quantitative strictness lemma for the elevation map -/

theorem R373_gt : (-4 : ℝ) < acklamTailRatio (373 / 100) := by
  unfold acklamTailRatio acklamTailNum acklamTailDen
  rw [lt_div_iff (by norm_num)]
  norm_num

theorem core_gt_neg4 {p : ℝ} (h1 : 1 / 1024 ≤ p) (h2 : p ≤ 1 / 2) :
    -4 < inverseNormalCDFCore p := by
  rcases lt_or_le p 0.02425 with hc | hc
  · rw [core_tail_eq hc]
    have hq0 : (272739387 : ℝ) / 100000000 < Real.sqrt (-2 * Real.log p) :=
      q_gt_q0 (by linarith) hc
    have hqu : Real.sqrt (-2 * Real.log p) ≤ 373 / 100 := by
      rw [show (373 / 100 : ℝ) = Real.sqrt ((373 / 100) ^ 2) from
        (Real.sqrt_sq (by norm_num)).symm]
      apply Real.sqrt_le_sqrt
      have hlp : Real.log (1 / 1024 : ℝ) ≤ Real.log p :=
        (Real.log_le_log_iff (by norm_num) (by linarith)).mpr h1
      have hl : Real.log (1 / 1024 : ℝ) = -(10 * Real.log 2) := by
        rw [show (1 / 1024 : ℝ) = ((2 : ℝ) ^ 10)⁻¹ by norm_num, Real.log_inv,
          Real.log_pow]
        norm_num
      have h2l := Real.log_two_lt_d9
      rw [hl] at hlp
      nlinarith
    have ha := (tail_strictAntiOn.antitoneOn)
      (Set.mem_Icc.mpr ⟨le_of_lt hq0, by linarith⟩)
      (Set.mem_Icc.mpr ⟨by norm_num, by norm_num⟩) hqu
    linarith [R373_gt]
  · rw [core_central_eq (not_lt.mpr hc) (not_lt.mpr (by linarith))]
    have hVc : acklamCentralRatio (-(1903 / 4000)) ≤ acklamCentralRatio (p - 0.5) :=
      central_strictMonoOn.monotoneOn
        (Set.mem_Icc.mpr ⟨le_refl _, by norm_num⟩)
        (Set.mem_Icc.mpr ⟨by linarith, by linarith⟩)
        (by linarith)
    have hq0R := (tail_strictAntiOn.antitoneOn)
      (Set.mem_Icc.mpr ⟨le_refl _, by norm_num⟩)
      (Set.mem_Icc.mpr ⟨by norm_num, by norm_num⟩)
      (by norm_num : ((272739387 : ℝ) / 100000000) ≤ 373 / 100)
    linarith [R373_gt, seam_cert]

theorem clamp_pos_of {v hi : ℝ} (lo : ℝ) (hv : 0 < v) (hhi : 0 < hi) :
    0 < clamp v lo hi := by
  unfold clamp
  exact lt_max_of_lt_right (lt_min hhi hv)

theorem clamp_neg_of {v lo : ℝ} (hi : ℝ) (hv : v < 0) (hlo : lo < 0) :
    clamp v lo hi < 0 := by
  unfold clamp
  exact max_lt hlo (lt_of_le_of_lt (min_le_right _ _) hv)

set_option maxHeartbeats 1600000 in
theorem E_gap_strict {u1 u2 : ℝ} (h1 : 1 / 500 ≤ u1) (h12 : u1 + 1 / 500 ≤ u2)
    (h2 : u2 ≤ 499 / 500) :
    (elevPair u1 STD_DEVS).1 < (elevPair u2 STD_DEVS).1 := by
  have hS4 : STD_DEVS = (4 : ℝ) := rfl
  have hWval : |LOWEST_ELEVATION_LIMIT| / STD_DEVS /
      (|LOWEST_ELEVATION_LIMIT| / STD_DEVS + HIGHEST_ELEVATION_LIMIT / STD_DEVS)
      = (16404 : ℝ) / 65089 := by
    unfold LOWEST_ELEVATION_LIMIT HIGHEST_ELEVATION_LIMIT STD_DEVS
    rw [abs_of_nonpos (by norm_num)]
    norm_num
  have hsigL : |LOWEST_ELEVATION_LIMIT| / STD_DEVS = (4101 : ℝ) := by
    unfold LOWEST_ELEVATION_LIMIT STD_DEVS
    rw [abs_of_nonpos (by norm_num)]
    norm_num
  have hsigR : HIGHEST_ELEVATION_LIMIT / STD_DEVS = (48685 : ℝ) / 4 := by
    unfold HIGHEST_ELEVATION_LIMIT STD_DEVS
    norm_num
  have hBase : BASE_ABYSSAL_FLOOR_ELEVATION = (0 : ℝ) := rfl
  have hLv : LOWEST_ELEVATION_LIMIT = (-16404 : ℝ) := rfl
  have hHv : HIGHEST_ELEVATION_LIMIT = (48685 : ℝ) := rfl
  have hu1c : clamp u1 (1e-6 : ℝ) (1 - 1e-6) = u1 :=
    clamp_of_mem (by linarith) (by linarith)
  have hu2c : clamp u2 (1e-6 : ℝ) (1 - 1e-6) = u2 :=
    clamp_of_mem (by linarith) (by linarith)
  unfold elevPair
  dsimp only
  rw [hWval, hsigL, hsigR, hS4, hBase, hLv, hHv, hu1c, hu2c]
  rcases lt_or_le u2 ((16404 : ℝ) / 65089) with hc2 | hc2
  · -- both in the left (below-w) branch
    have hc1 : u1 < (16404 : ℝ) / 65089 := by linarith
    rw [if_pos hc1, if_pos hc2]
    dsimp only
    have hA1 : clamp (u1 / (2 * (16404 / 65089))) (1e-6 : ℝ) (0.5 - 1e-6)
        = u1 / (2 * (16404 / 65089)) := by
      apply clamp_of_mem
      · rw [le_div_iff (by norm_num)]
        nlinarith
      · rw [div_le_iff (by norm_num)]
        nlinarith
    have hA1range : 1 / 1024 ≤ u1 / (2 * (16404 / 65089)) ∧
        u1 / (2 * (16404 / 65089)) ≤ 1 / 2 - 1 / 1024 := by
      constructor
      · rw [le_div_iff (by norm_num)]
        nlinarith
      · rw [div_le_iff (by norm_num)]
        nlinarith
    set A1 := u1 / (2 * (16404 / 65089)) with hA1def
    set A2 := clamp (u2 / (2 * (16404 / 65089))) (1e-6 : ℝ) (0.5 - 1e-6) with hA2def
    have hA2mem : (1e-6 : ℝ) ≤ A2 ∧ A2 ≤ 0.5 - 1e-6 := clamp_mem _ _ _ (by norm_num)
    have hA12 : A1 < A2 := by
      rw [hA2def]
      unfold clamp
      apply lt_max_of_lt_right
      apply lt_min
      · linarith [hA1range.2]
      · rw [hA1def, div_lt_div_iff_of_pos_right
          (by norm_num : (0 : ℝ) < 2 * (16404 / 65089))]
        linarith
    rw [hA1]
    have hz1 : -4 < inverseNormalCDFCore A1 :=
      core_gt_neg4 hA1range.1 (by linarith [hA1range.2])
    have hz1neg : inverseNormalCDFCore A1 < 0 :=
      core_neg_of_lt_half (by linarith [hA1range.1]) (by linarith [hA1range.2])
    have hzlt : inverseNormalCDFCore A1 < inverseNormalCDFCore A2 :=
      core_strictMono (by linarith [hA1range.1]) hA12 (by linarith [hA2mem.2])
    have hz2neg : inverseNormalCDFCore A2 < 0 :=
      core_neg_of_lt_half hA2mem.1 (by linarith [hA2mem.2])
    have ezc1 : clamp (inverseNormalCDFCore A1) (-4 : ℝ) 4 = inverseNormalCDFCore A1 :=
      clamp_of_mem (by linarith) (by linarith)
    have ezc2 : clamp (inverseNormalCDFCore A2) (-4 : ℝ) 4 = inverseNormalCDFCore A2 :=
      clamp_of_mem (by linarith) (by linarith)
    rw [ezc1, ezc2]
    have eo1 : clamp (0 + 4101 * inverseNormalCDFCore A1) (-16404 : ℝ) 48685
        = 0 + 4101 * inverseNormalCDFCore A1 :=
      clamp_of_mem (by linarith) (by linarith)
    have eo2 : clamp (0 + 4101 * inverseNormalCDFCore A2) (-16404 : ℝ) 48685
        = 0 + 4101 * inverseNormalCDFCore A2 :=
      clamp_of_mem (by linarith) (by linarith)
    rw [eo1, eo2]
    linarith
  · rcases lt_or_le u1 ((16404 : ℝ) / 65089) with hc1 | hc1
    · -- u1 below w, u2 at or above w: left value negative, right value positive
      rw [if_pos hc1, if_neg (not_lt.mpr hc2)]
      dsimp only
      set B1 := clamp (u1 / (2 * (16404 / 65089))) (1e-6 : ℝ) (0.5 - 1e-6) with hB1def
      set B2 := clamp (0.5 + (u2 - 16404 / 65089) / (2 * (1 - 16404 / 65089)))
        (0.5 + 1e-6 : ℝ) (1 - 1e-6) with hB2def
      have hA1mem : (1e-6 : ℝ) ≤ B1 ∧ B1 ≤ 0.5 - 1e-6 := clamp_mem _ _ _ (by norm_num)
      have hz1 : inverseNormalCDFCore B1 < 0 :=
        core_neg_of_lt_half hA1mem.1 (by linarith [hA1mem.2])
      have hA2mem : (0.5 + 1e-6 : ℝ) ≤ B2 ∧ B2 ≤ 1 - 1e-6 :=
        clamp_mem _ _ _ (by norm_num)
      have hz2 : 0 < inverseNormalCDFCore B2 :=
        core_pos_of_gt_half (by linarith [hA2mem.1]) hA2mem.2
      set z1 := clamp (inverseNormalCDFCore B1) (-4 : ℝ) 4 with hz1def
      set z2 := clamp (inverseNormalCDFCore B2) (-4 : ℝ) 4 with hz2def
      have hzc1 : z1 < 0 := clamp_neg_of _ hz1 (by norm_num)
      have hzc2 : 0 < z2 := clamp_pos_of _ hz2 (by norm_num)
      have hv1 : 0 + 4101 * z1 < 0 := by linarith
      have hv2 : 0 < 0 + 48685 / 4 * z2 := by linarith
      exact lt_trans (clamp_neg_of _ hv1 (by norm_num))
        (clamp_pos_of _ hv2 (by norm_num))
    · -- both in the right (at-or-above-w) branch
      rw [if_neg (not_lt.mpr hc1), if_neg (not_lt.mpr hc2)]
      dsimp only
      have hcpos : (0 : ℝ) < 2 * (1 - 16404 / 65089) := by norm_num
      have hraw2hi : 0.5 + (u2 - 16404 / 65089) / (2 * (1 - 16404 / 65089))
          ≤ 1 - 1 / 1024 := by
        have hd : (u2 - 16404 / 65089) / (2 * (1 - 16404 / 65089)) ≤ 1 / 2 - 1 / 1024 := by
          rw [div_le_iff hcpos]
          nlinarith
        linarith
      have hraw2lo : 0.5 + 1 / 1000 ≤ 0.5 + (u2 - 16404 / 65089) /
          (2 * (1 - 16404 / 65089)) := by
        have hd : (1 / 1000 : ℝ) ≤ (u2 - 16404 / 65089) / (2 * (1 - 16404 / 65089)) := by
          rw [le_div_iff hcpos]
          nlinarith
        linarith
      have hA2 : clamp (0.5 + (u2 - 16404 / 65089) / (2 * (1 - 16404 / 65089)))
          (0.5 + 1e-6 : ℝ) (1 - 1e-6)
          = 0.5 + (u2 - 16404 / 65089) / (2 * (1 - 16404 / 65089)) :=
        clamp_of_mem (by linarith) (by linarith)
      set A2 := 0.5 + (u2 - 16404 / 65089) / (2 * (1 - 16404 / 65089)) with hA2def
      set A1 := clamp (0.5 + (u1 - 16404 / 65089) / (2 * (1 - 16404 / 65089)))
        (0.5 + 1e-6 : ℝ) (1 - 1e-6) with hA1def
      rw [hA2]
      have hA1mem : (0.5 + 1e-6 : ℝ) ≤ A1 ∧ A1 ≤ 1 - 1e-6 := clamp_mem _ _ _ (by norm_num)
      clear_value A1 A2
      have hA12 : A1 < A2 := by
        rw [hA1def]
        unfold clamp
        apply max_lt
        · linarith
        · apply lt_of_le_of_lt (min_le_right _ _)
          rw [hA2def]
          have hlt : (u1 - 16404 / 65089) / (2 * (1 - 16404 / 65089))
              < (u2 - 16404 / 65089) / (2 * (1 - 16404 / 65089)) := by
            rw [div_lt_div_iff_of_pos_right hcpos]
            linarith
          linarith
      have hz1pos : 0 < inverseNormalCDFCore A1 :=
        core_pos_of_gt_half (by linarith [hA1mem.1]) hA1mem.2
      have hz12 : inverseNormalCDFCore A1 < inverseNormalCDFCore A2 :=
        core_strictMono (by linarith [hA1mem.1]) hA12 (by linarith [hraw2hi])
      have hsymm := core_symm (show (0 : ℝ) < 1 - A2 by linarith [hraw2hi])
        (show (1 : ℝ) - A2 < 1 by linarith [hraw2lo])
      rw [show (1 : ℝ) - (1 - A2) = A2 by ring] at hsymm
      have hz2lt : inverseNormalCDFCore A2 < 4 := by
        have hgt := core_gt_neg4 (show (1 : ℝ) / 1024 ≤ 1 - A2 by linarith [hraw2hi])
          (show (1 : ℝ) - A2 ≤ 1 / 2 by linarith [hraw2lo])
        rw [hsymm]
        linarith
      have ezc1 : clamp (inverseNormalCDFCore A1) (-4 : ℝ) 4 = inverseNormalCDFCore A1 :=
        clamp_of_mem (by linarith) (by linarith)
      have ezc2 : clamp (inverseNormalCDFCore A2) (-4 : ℝ) 4 = inverseNormalCDFCore A2 :=
        clamp_of_mem (by linarith) (by linarith)
      rw [ezc1, ezc2]
      have eo1 : clamp (0 + 48685 / 4 * inverseNormalCDFCore A1) (-16404 : ℝ) 48685
          = 0 + 48685 / 4 * inverseNormalCDFCore A1 :=
        clamp_of_mem (by nlinarith) (by nlinarith)
      have eo2 : clamp (0 + 48685 / 4 * inverseNormalCDFCore A2) (-16404 : ℝ) 48685
          = 0 + 48685 / 4 * inverseNormalCDFCore A2 :=
        clamp_of_mem (by nlinarith) (by nlinarith)
      rw [eo1, eo2]
      linarith

/-! ### createIcosphere: cache and skeleton lemmas -/

theorem midKey_comm (a b : ℕ) : midKey a b = midKey b a := by
  unfold midKey
  rcases lt_trichotomy a b with h | h | h
  · rw [if_pos h, if_neg (by omega)]
  · subst h
    rfl
  · rw [if_neg (by omega), if_pos h]

theorem midKey_norm {a b : ℕ} (h : a ≠ b) : (midKey a b).1 < (midKey a b).2 := by
  unfold midKey
  split
  · simpa using by omega
  · simp only
    omega

theorem midKey_bounds {a b n : ℕ} (ha : a < n) (hb : b < n) :
    (midKey a b).1 < n ∧ (midKey a b).2 < n := by
  unfold midKey
  split
  · exact ⟨ha, hb⟩
  · exact ⟨hb, ha⟩

theorem midKey_edgeSet (a b : ℕ) : edgeSetOf (midKey a b) = {a, b} := by
  unfold midKey edgeSetOf
  split
  · rfl
  · exact Finset.pair_comm b a

theorem mem_midKey_left (a b : ℕ) : a ∈ edgeSetOf (midKey a b) := by
  rw [midKey_edgeSet]
  exact Finset.mem_insert_self a {b}

theorem mem_midKey_right (a b : ℕ) : b ∈ edgeSetOf (midKey a b) := by
  rw [midKey_edgeSet]
  exact Finset.mem_insert_of_mem (Finset.mem_singleton_self b)

theorem mem_edgeSet_midKey {x a b : ℕ} (h : x ∈ edgeSetOf (midKey a b)) :
    x = a ∨ x = b := by
  rw [midKey_edgeSet] at h
  simpa using h

theorem assq_eq_none_iff {l : List ((ℕ × ℕ) × ℕ)} {k : ℕ × ℕ} :
    assq l k = none ↔ k ∉ l.map Prod.fst := by
  induction l with
  | nil => simp [assq]
  | cons p rest ih =>
    rw [show assq (p :: rest) k = if k = p.1 then some p.2 else assq rest k from rfl]
    by_cases h : k = p.1
    · simp [h]
    · simp [h, ih]

theorem assq_some_mem {l : List ((ℕ × ℕ) × ℕ)} {k : ℕ × ℕ} {v : ℕ}
    (h : assq l k = some v) : (k, v) ∈ l := by
  induction l with
  | nil => simp [assq] at h
  | cons p rest ih =>
    rw [show assq (p :: rest) k = if k = p.1 then some p.2 else assq rest k from rfl] at h
    by_cases hk : k = p.1
    · rw [if_pos hk] at h
      have hv : v = p.2 := (Option.some.inj h).symm
      have : (k, v) = p := Prod.ext_iff.mpr ⟨hk, hv⟩
      rw [this]
      exact List.mem_cons_self p rest
    · rw [if_neg hk] at h
      exact List.mem_cons_of_mem _ (ih h)

theorem assq_of_mem_nodup {l : List ((ℕ × ℕ) × ℕ)} {k : ℕ × ℕ} {v : ℕ}
    (hnd : (l.map Prod.fst).Nodup) (h : (k, v) ∈ l) : assq l k = some v := by
  induction l with
  | nil => simp at h
  | cons p rest ih =>
    rw [List.map_cons, List.nodup_cons] at hnd
    rw [show assq (p :: rest) k = if k = p.1 then some p.2 else assq rest k from rfl]
    rcases List.mem_cons.mp h with h1 | h1
    · rw [← h1]
      simp
    · have hk : k ≠ p.1 := by
        intro he
        exact hnd.1 (he ▸ List.mem_map_of_mem Prod.fst h1)
      rw [if_neg hk]
      exact ih hnd.2 h1

theorem assq_append_of_none {l1 l2 : List ((ℕ × ℕ) × ℕ)} {k : ℕ × ℕ}
    (h : assq l1 k = none) : assq (l1 ++ l2) k = assq l2 k := by
  induction l1 with
  | nil => rfl
  | cons p rest ih =>
    rw [show assq (p :: rest) k = if k = p.1 then some p.2 else assq rest k from rfl] at h
    by_cases hk : k = p.1
    · rw [if_pos hk] at h
      exact absurd h (by simp)
    · rw [if_neg hk] at h
      rw [List.cons_append,
        show assq (p :: (rest ++ l2)) k = if k = p.1 then some p.2 else assq (rest ++ l2) k
          from rfl, if_neg hk]
      exact ih h

theorem assq_append_of_some {l1 l2 : List ((ℕ × ℕ) × ℕ)} {k : ℕ × ℕ} {v : ℕ}
    (h : assq l1 k = some v) : assq (l1 ++ l2) k = some v := by
  induction l1 with
  | nil => simp [assq] at h
  | cons p rest ih =>
    rw [show assq (p :: rest) k = if k = p.1 then some p.2 else assq rest k from rfl] at h
    rw [List.cons_append,
      show assq (p :: (rest ++ l2)) k = if k = p.1 then some p.2 else assq (rest ++ l2) k
        from rfl]
    by_cases hk : k = p.1
    · rw [if_pos hk] at h ⊢
      exact h
    · rw [if_neg hk] at h ⊢
      exact ih h

theorem getMid_skel {V : Type} [Inhabited V] (mid : V → V → V) (st : IcoState V)
    (a b : ℕ) :
    skelOf (getMid mid st a b).1 = (getMidIdx (skelOf st) a b).1 ∧
      (getMid mid st a b).2 = (getMidIdx (skelOf st) a b).2 := by
  unfold getMid getMidIdx skelOf
  cases h : assq st.cache (midKey a b) <;> simp [h]

theorem subdivFace_skel {V : Type} [Inhabited V] (mid : V → V → V) (st : IcoState V)
    (f : ℕ × ℕ × ℕ) :
    skelOf (subdivFace mid st f).1 = (subdivFaceIdx (skelOf st) f).1 ∧
      (subdivFace mid st f).2 = (subdivFaceIdx (skelOf st) f).2 := by
  obtain ⟨h1, h1v⟩ := getMid_skel mid st f.1 f.2.1
  obtain ⟨h2, h2v⟩ := getMid_skel mid (getMid mid st f.1 f.2.1).1 f.2.1 f.2.2
  rw [h1] at h2 h2v
  obtain ⟨h3, h3v⟩ :=
    getMid_skel mid (getMid mid (getMid mid st f.1 f.2.1).1 f.2.1 f.2.2).1 f.2.2 f.1
  rw [h2] at h3 h3v
  unfold subdivFace subdivFaceIdx
  dsimp only
  rw [h1v, h2v, h3v]
  exact ⟨h3, rfl⟩

theorem pass_fold_skel {V : Type} [Inhabited V] (mid : V → V → V) :
    ∀ (faces : List (ℕ × ℕ × ℕ)) (st : IcoState V) (acc : List (ℕ × ℕ × ℕ)),
      skelOf (faces.foldl (fun acc f =>
          let r := subdivFace mid acc.1 f
          (r.1, acc.2 ++ r.2)) (st, acc)).1
        = (faces.foldl (fun acc f =>
          let r := subdivFaceIdx acc.1 f
          (r.1, acc.2 ++ r.2)) (skelOf st, acc)).1 ∧
      (faces.foldl (fun acc f =>
          let r := subdivFace mid acc.1 f
          (r.1, acc.2 ++ r.2)) (st, acc)).2
        = (faces.foldl (fun acc f =>
          let r := subdivFaceIdx acc.1 f
          (r.1, acc.2 ++ r.2)) (skelOf st, acc)).2 := by
  intro faces
  induction faces with
  | nil => exact fun st acc => ⟨rfl, rfl⟩
  | cons f rest ih =>
    intro st acc
    simp only [List.foldl_cons]
    obtain ⟨hs, hf⟩ := subdivFace_skel mid st f
    rw [← hs, ← hf]
    exact ih (subdivFace mid st f).1 (acc ++ (subdivFace mid st f).2)

theorem subdivPass_skel {V : Type} [Inhabited V] (mid : V → V → V) (st : IcoState V)
    (faces : List (ℕ × ℕ × ℕ)) :
    skelOf (subdivPass mid st faces).1 = (subdivPassIdx (skelOf st) faces).1 ∧
      (subdivPass mid st faces).2 = (subdivPassIdx (skelOf st) faces).2 := by
  unfold subdivPass subdivPassIdx
  exact pass_fold_skel mid faces st []

theorem icoIter_skel {V : Type} [Inhabited V] (mid : V → V → V) (v0 : List V)
    (h12 : v0.length = 12) (s : ℕ) :
    skelOf (icoIter mid v0 s).1 = (icoSkelIter s).1 ∧
      (icoIter mid v0 s).2 = (icoSkelIter s).2 := by
  induction s with
  | zero =>
    constructor
    · unfold icoIter icoSkelIter skelOf
      rw [h12]
    · rfl
  | succ s ih =>
    have hstep := subdivPass_skel mid (icoIter mid v0 s).1 (icoIter mid v0 s).2
    constructor
    · show skelOf (subdivPass mid (icoIter mid v0 s).1 (icoIter mid v0 s).2).1
        = (subdivPassIdx (icoSkelIter s).1 (icoSkelIter s).2).1
      rw [hstep.1, ih.1, ih.2]
    · show (subdivPass mid (icoIter mid v0 s).1 (icoIter mid v0 s).2).2
        = (subdivPassIdx (icoSkelIter s).1 (icoSkelIter s).2).2
      rw [hstep.2, ih.1, ih.2]

theorem flatMap_congr {α β : Type} {l : List α} {f g : α → List β}
    (h : ∀ x ∈ l, f x = g x) : l.flatMap f = l.flatMap g := by
  induction l with
  | nil => rfl
  | cons a rest ih =>
    rw [List.flatMap_cons, List.flatMap_cons, h a (List.mem_cons_self a rest),
      ih (fun x hx => h x (List.mem_cons_of_mem a hx))]

theorem edgeList_append (l1 l2 : List (ℕ × ℕ × ℕ)) :
    edgeList (l1 ++ l2) = edgeList l1 ++ edgeList l2 := by
  unfold edgeList
  exact List.flatMap_append l1 l2 faceEdges

theorem getMidIdx_of_some {sk : IcoSkel} {a b v : ℕ}
    (h : assq sk.cache (midKey a b) = some v) : getMidIdx sk a b = (sk, v) := by
  unfold getMidIdx
  rw [h]

theorem getMidIdx_of_none {sk : IcoSkel} {a b : ℕ}
    (h : assq sk.cache (midKey a b) = none) :
    getMidIdx sk a b =
      (⟨sk.nVerts + 1, (midKey a b, sk.nVerts) :: sk.cache⟩, sk.nVerts) := by
  unfold getMidIdx
  rw [h]

theorem getMidIdx_ensure {sk0 : IcoSkel} {S : Finset (ℕ × ℕ)} {sk : IcoSkel}
    (hCK : CacheOK sk0 S sk) {a b : ℕ} (hab : a ≠ b)
    (hfr : assq sk0.cache (midKey a b) = none)
    (ha : a < sk0.nVerts) (hb : b < sk0.nVerts) :
    CacheOK sk0 (insert (midKey a b) S) (getMidIdx sk a b).1 ∧
    assq (getMidIdx sk a b).1.cache (midKey a b) = some (getMidIdx sk a b).2 ∧
    sk0.nVerts ≤ (getMidIdx sk a b).2 ∧
    (getMidIdx sk a b).2 < (getMidIdx sk a b).1.nVerts ∧
    sk.nVerts ≤ (getMidIdx sk a b).1.nVerts ∧
    (∀ k v, assq sk.cache k = some v → assq (getMidIdx sk a b).1.cache k = some v) := by
  obtain ⟨newE, hc, hn, hknd, hkset, hvnd, hvr, hkb⟩ := hCK
  cases h : assq sk.cache (midKey a b) with
  | some v =>
    rw [getMidIdx_of_some h]
    have hmem : (midKey a b, v) ∈ newE := by
      have hm := assq_some_mem h
      rw [hc] at hm
      rcases List.mem_append.mp hm with hm1 | hm1
      · exact hm1
      · exact absurd (List.mem_map_of_mem Prod.fst hm1) (assq_eq_none_iff.mp hfr)
    have hKS : midKey a b ∈ S := by
      rw [← hkset]
      exact List.mem_toFinset.mpr (List.mem_map_of_mem Prod.fst hmem)
    rw [Finset.insert_eq_self.mpr hKS]
    exact ⟨⟨newE, hc, hn, hknd, hkset, hvnd, hvr, hkb⟩, h, (hvr _ hmem).1,
      (hvr _ hmem).2, le_refl _, fun k w hw => hw⟩
  | none =>
    rw [getMidIdx_of_none h]
    have hKnew : midKey a b ∉ newE.map Prod.fst := by
      intro hmem
      have hm : midKey a b ∈ sk.cache.map Prod.fst := by
        rw [hc, List.map_append]
        exact List.mem_append.mpr (Or.inl hmem)
      exact assq_eq_none_iff.mp h hm
    refine ⟨⟨(midKey a b, sk.nVerts) :: newE, ?_, ?_, ?_, ?_, ?_, ?_, ?_⟩,
      ?_, ?_, ?_, ?_, ?_⟩
    · show (midKey a b, sk.nVerts) :: sk.cache
        = ((midKey a b, sk.nVerts) :: newE) ++ sk0.cache
      rw [hc, List.cons_append]
    · show sk.nVerts + 1 = sk0.nVerts + ((midKey a b, sk.nVerts) :: newE).length
      simp only [List.length_cons]
      omega
    · rw [List.map_cons]
      exact List.nodup_cons.mpr ⟨hKnew, hknd⟩
    · rw [List.map_cons, List.toFinset_cons, hkset]
    · rw [List.map_cons]
      refine List.nodup_cons.mpr ⟨?_, hvnd⟩
      intro hmem
      obtain ⟨p, hp, hpv⟩ := List.mem_map.mp hmem
      have := (hvr p hp).2
      omega
    · intro p hp
      rcases List.mem_cons.mp hp with h1 | h1
      · rw [h1]
        show sk0.nVerts ≤ sk.nVerts ∧ sk.nVerts < sk.nVerts + 1
        omega
      · have := hvr p h1
        show sk0.nVerts ≤ p.2 ∧ p.2 < sk.nVerts + 1
        omega
    · intro p hp
      rcases List.mem_cons.mp hp with h1 | h1
      · rw [h1]
        exact ⟨midKey_norm hab, (midKey_bounds ha hb).2⟩
      · exact hkb p h1
    · show assq ((midKey a b, sk.nVerts) :: sk.cache) (midKey a b) = some sk.nVerts
      rw [show assq ((midKey a b, sk.nVerts) :: sk.cache) (midKey a b)
        = if midKey a b = (midKey a b, sk.nVerts).1 then some sk.nVerts
          else assq sk.cache (midKey a b) from rfl, if_pos rfl]
    · show sk0.nVerts ≤ sk.nVerts
      omega
    · show sk.nVerts < sk.nVerts + 1
      omega
    · show sk.nVerts ≤ sk.nVerts + 1
      omega
    · intro k v hv
      show assq ((midKey a b, sk.nVerts) :: sk.cache) k = some v
      have hk : k ≠ midKey a b := by
        intro he
        rw [he, h] at hv
        exact Option.noConfusion hv
      rw [show assq ((midKey a b, sk.nVerts) :: sk.cache) k
        = if k = (midKey a b, sk.nVerts).1 then some sk.nVerts
          else assq sk.cache k from rfl, if_neg hk]
      exact hv

theorem faceEdges_mem1 (f : ℕ × ℕ × ℕ) : midKey f.1 f.2.1 ∈ faceEdges f := by
  unfold faceEdges
  exact List.mem_cons_self _ _

theorem faceEdges_mem2 (f : ℕ × ℕ × ℕ) : midKey f.2.1 f.2.2 ∈ faceEdges f := by
  unfold faceEdges
  exact List.mem_cons_of_mem _ (List.mem_cons_self _ _)

theorem faceEdges_mem3 (f : ℕ × ℕ × ℕ) : midKey f.2.2 f.1 ∈ faceEdges f := by
  unfold faceEdges
  exact List.mem_cons_of_mem _ (List.mem_cons_of_mem _ (List.mem_cons_self _ _))

theorem edgeList_singleton_mem (f : ℕ × ℕ × ℕ) (k : ℕ × ℕ) :
    k ∈ edgeList [f] ↔
      k = midKey f.1 f.2.1 ∨ k = midKey f.2.1 f.2.2 ∨ k = midKey f.2.2 f.1 := by
  unfold edgeList faceEdges
  simp

theorem CacheOK_lookup {sk0 : IcoSkel} {S : Finset (ℕ × ℕ)} {sk : IcoSkel}
    (hCK : CacheOK sk0 S sk) {k : ℕ × ℕ} (hk : k ∈ S) :
    ∃ v, assq sk.cache k = some v := by
  obtain ⟨newE, hc, hn, hknd, hkset, hvnd, hvr, hkb⟩ := hCK
  rw [← hkset] at hk
  obtain ⟨p, hp, hpk⟩ := List.mem_map.mp (List.mem_toFinset.mp hk)
  refine ⟨p.2, ?_⟩
  rw [hc]
  apply assq_append_of_some
  apply assq_of_mem_nodup hknd
  rw [show (k, p.2) = p from Prod.ext_iff.mpr ⟨hpk.symm, rfl⟩]
  exact hp

theorem subdivFaceIdx_step {sk0 sk : IcoSkel} {P acc : List (ℕ × ℕ × ℕ)}
    {f : ℕ × ℕ × ℕ}
    (hPM : PassMid sk0 P sk acc)
    (hd : f.1 ≠ f.2.1 ∧ f.2.1 ≠ f.2.2 ∧ f.2.2 ≠ f.1)
    (hb : f.1 < sk0.nVerts ∧ f.2.1 < sk0.nVerts ∧ f.2.2 < sk0.nVerts)
    (hfr : ∀ k ∈ faceEdges f, assq sk0.cache k = none) :
    PassMid sk0 (P ++ [f]) (subdivFaceIdx sk f).1 (acc ++ (subdivFaceIdx sk f).2) := by
  obtain ⟨hCK, hacc⟩ := hPM
  have hfr1 := hfr _ (faceEdges_mem1 f)
  have hfr2 := hfr _ (faceEdges_mem2 f)
  have hfr3 := hfr _ (faceEdges_mem3 f)
  obtain ⟨CK1, hl1, hge1, hlt1, hmono1, hstab1⟩ :=
    getMidIdx_ensure hCK hd.1 hfr1 hb.1 hb.2.1
  obtain ⟨CK2, hl2, hge2, hlt2, hmono2, hstab2⟩ :=
    getMidIdx_ensure CK1 hd.2.1 hfr2 hb.2.1 hb.2.2
  obtain ⟨CK3, hl3, hge3, hlt3, hmono3, hstab3⟩ :=
    getMidIdx_ensure CK2 hd.2.2 hfr3 hb.2.2 hb.1
  have hstab13 : ∀ k v, assq sk.cache k = some v →
      assq (subdivFaceIdx sk f).1.cache k = some v := by
    intro k v hv
    show assq (getMidIdx (getMidIdx (getMidIdx sk f.1 f.2.1).1 f.2.1 f.2.2).1
      f.2.2 f.1).1.cache k = some v
    exact hstab3 _ _ (hstab2 _ _ (hstab1 _ _ hv))
  have hK1 : assq (subdivFaceIdx sk f).1.cache (midKey f.1 f.2.1)
      = some (getMidIdx sk f.1 f.2.1).2 := by
    show assq (getMidIdx (getMidIdx (getMidIdx sk f.1 f.2.1).1 f.2.1 f.2.2).1
      f.2.2 f.1).1.cache _ = _
    exact hstab3 _ _ (hstab2 _ _ hl1)
  have hK2 : assq (subdivFaceIdx sk f).1.cache (midKey f.2.1 f.2.2)
      = some (getMidIdx (getMidIdx sk f.1 f.2.1).1 f.2.1 f.2.2).2 := by
    show assq (getMidIdx (getMidIdx (getMidIdx sk f.1 f.2.1).1 f.2.1 f.2.2).1
      f.2.2 f.1).1.cache _ = _
    exact hstab3 _ _ hl2
  have hK3 : assq (subdivFaceIdx sk f).1.cache (midKey f.2.2 f.1)
      = some (getMidIdx (getMidIdx (getMidIdx sk f.1 f.2.1).1 f.2.1 f.2.2).1
        f.2.2 f.1).2 := by
    show assq (getMidIdx (getMidIdx (getMidIdx sk f.1 f.2.1).1 f.2.1 f.2.2).1
      f.2.2 f.1).1.cache _ = _
    exact hl3
  constructor
  · have hset : (edgeList (P ++ [f])).toFinset
        = insert (midKey f.2.2 f.1) (insert (midKey f.2.1 f.2.2)
            (insert (midKey f.1 f.2.1) (edgeList P).toFinset)) := by
      ext k
      rw [edgeList_append, List.toFinset_append]
      simp only [Finset.mem_union, List.mem_toFinset, Finset.mem_insert,
        edgeList_singleton_mem]
      tauto
    rw [hset]
    show CacheOK sk0 _ (getMidIdx (getMidIdx (getMidIdx sk f.1 f.2.1).1 f.2.1 f.2.2).1
      f.2.2 f.1).1
    exact CK3
  · rw [List.flatMap_append]
    have hP : P.flatMap (fun g => childFaces g (mFn (subdivFaceIdx sk f).1.cache))
        = acc := by
      rw [hacc]
      apply flatMap_congr
      intro g hg
      have hm : ∀ k ∈ faceEdges g,
          mFn (subdivFaceIdx sk f).1.cache k = mFn sk.cache k := by
        intro k hkmem
        have hkS : k ∈ (edgeList P).toFinset := by
          apply List.mem_toFinset.mpr
          unfold edgeList
          exact List.mem_flatMap.mpr ⟨g, hg, hkmem⟩
        obtain ⟨v, hv⟩ := CacheOK_lookup hCK hkS
        have hv3 := hstab13 _ _ hv
        unfold mFn
        rw [hv, hv3]
      unfold childFaces
      rw [hm _ (faceEdges_mem1 g), hm _ (faceEdges_mem2 g), hm _ (faceEdges_mem3 g)]
    have hf : [f].flatMap (fun g => childFaces g (mFn (subdivFaceIdx sk f).1.cache))
        = (subdivFaceIdx sk f).2 := by
      rw [List.flatMap_cons, List.flatMap_nil, List.append_nil]
      unfold childFaces mFn
      rw [hK1, hK2, hK3]
      rfl
    rw [hP, hf]

theorem subdivPassIdx_fold {sk0 : IcoSkel} {faces : List (ℕ × ℕ × ℕ)}
    (hd : ∀ f ∈ faces, f.1 ≠ f.2.1 ∧ f.2.1 ≠ f.2.2 ∧ f.2.2 ≠ f.1)
    (hb : ∀ f ∈ faces, f.1 < sk0.nVerts ∧ f.2.1 < sk0.nVerts ∧ f.2.2 < sk0.nVerts)
    (hfr : ∀ f ∈ faces, ∀ k ∈ faceEdges f, assq sk0.cache k = none) :
    ∀ (R P : List (ℕ × ℕ × ℕ)) (sk : IcoSkel) (acc : List (ℕ × ℕ × ℕ)),
      faces = P ++ R → PassMid sk0 P sk acc →
      PassMid sk0 faces
        (R.foldl (fun acc f =>
          let r := subdivFaceIdx acc.1 f
          (r.1, acc.2 ++ r.2)) (sk, acc)).1
        (R.foldl (fun acc f =>
          let r := subdivFaceIdx acc.1 f
          (r.1, acc.2 ++ r.2)) (sk, acc)).2 := by
  intro R
  induction R with
  | nil =>
    intro P sk acc hPe hPM
    rw [List.foldl_nil]
    rw [List.append_nil] at hPe
    rw [hPe]
    exact hPM
  | cons f rest ih =>
    intro P sk acc hPe hPM
    rw [List.foldl_cons]
    have hfP : f ∈ faces := by
      rw [hPe]
      exact List.mem_append.mpr (Or.inr (List.mem_cons_self f rest))
    have hstep := subdivFaceIdx_step hPM (hd f hfP) (hb f hfP) (hfr f hfP)
    exact ih (P ++ [f]) (subdivFaceIdx sk f).1 (acc ++ (subdivFaceIdx sk f).2)
      (by rw [hPe, List.append_assoc]; rfl) hstep

theorem subdivPassIdx_passmid (sk : IcoSkel) (faces : List (ℕ × ℕ × ℕ))
    (hInv : IcoInv sk faces) :
    PassMid sk faces (subdivPassIdx sk faces).1 (subdivPassIdx sk faces).2 := by
  have h0 : PassMid sk [] sk [] := by
    constructor
    · exact ⟨[], (List.nil_append _).symm, by simp, by simp, rfl, by simp,
        fun p hp => absurd hp (List.not_mem_nil p),
        fun p hp => absurd hp (List.not_mem_nil p)⟩
    · rfl
  unfold subdivPassIdx
  exact subdivPassIdx_fold hInv.fdist hInv.fbound hInv.fresh faces [] sk [] rfl h0

/-! ### Claim theorems: C6, C7, C9 -/

/-- C6: `inverseNormalCDF(p)` fails (throws, modelled as `none`) exactly when
`p` is outside the open interval `(0,1)`: it rejects every `p ≤ 0` and every
`p ≥ 1`, and returns a value for every `p` strictly between 0 and 1. -/
theorem C6_inverseNormalCDF_domain (p : ℝ) :
    (inverseNormalCDF p = none ↔ p ≤ 0 ∨ 1 ≤ p) ∧
      ((inverseNormalCDF p).isSome ↔ 0 < p ∧ p < 1) := by
  unfold inverseNormalCDF
  by_cases h : p ≤ 0 ∨ 1 ≤ p
  · rw [if_pos h]
    refine ⟨⟨fun _ => h, fun _ => rfl⟩, ?_⟩
    simp only [Option.isSome_none, Bool.false_eq_true, false_iff]
    intro hc
    rcases h with h | h
    · linarith [hc.1]
    · linarith [hc.2]
  · rw [if_neg h]
    have h2 := h
    push_neg at h2
    refine ⟨⟨fun hnone => by simp at hnone, fun hc => absurd hc h⟩, ?_⟩
    simp only [Option.isSome_some, true_iff]
    exact ⟨h2.1, h2.2⟩

/-- C7 (counterexample): the claim "noise returns a defined value for every seed"
fails: with seed `-100` the constructor's shuffle computes a negative index
(`n = -199` on the first iteration), stores the undefined entry `p[-199]` into
`p[255]`, and `noise(0, 0, 765/4)` then dereferences `perm[255]` inside a corner
whose attenuation `t0 = 3/80` is nonnegative, so the gradient dereference is
undefined (a TypeError in JS). The embedded evaluation yields `none`. -/
theorem C7_counterexample : noiseO (-100 : ℚ) (0 : ℚ) 0 (765/4) = none :=
  noiseO_neg100

/-- C7 (amended): for every nonnegative rational seed — including the fractional
seeds the program passes at its call sites — and all real inputs, the noise
evaluation is defined and `noise` returns that value. -/
theorem C7_amended (seed : ℚ) (hs : 0 ≤ seed) (x y z : ℝ) :
    ∃ v, noiseO seed x y z = some v ∧ noise seed x y z = v := by
  obtain ⟨v, hv⟩ := noiseO_total hs x y z
  refine ⟨v, hv, ?_⟩
  unfold noise
  rw [hv]
  rfl

theorem C7_amended_witness :
    (0 : ℚ) ≤ 1/2 ∧ ∃ v, noiseO (1/2 : ℚ) (0 : ℝ) 0 0 = some v ∧ noise (1/2 : ℚ) (0 : ℝ) 0 0 = v :=
  ⟨by norm_num, C7_amended (1/2) (by norm_num) 0 0 0⟩

/-- C9: `percentileToElevationFeet(u, stdDevs)` never throws: for every real
`u` (including values outside `[0,1]`) and every real `stdDevs`, its internal
clamps keep both inverse-CDF arguments strictly inside `(0,1)`, so the
rejection branch of `inverseNormalCDF` is unreachable and the result is
always `some` pair. -/
theorem C9_percentile_total (u stdDevs : ℝ) :
    percentileToElevationFeet u stdDevs = some (elevPair u stdDevs) :=
  percentile_some u stdDevs

/-- C1: for every percentile `p ∈ (0,1)` and the fixed `STD_DEVS` span, the
`elevFeet` component of `percentileToElevationFeet(p, STD_DEVS)` lies in
`[LOWEST_ELEVATION_LIMIT, HIGHEST_ELEVATION_LIMIT] = [-16404, 48685]` feet,
and the map `p ↦ elevFeet` is monotonically non-decreasing — including across
the split-normal mixture-weight boundary `w = σL/(σL+σR)`. -/
theorem C1_elevation_range_mono (p1 p2 : ℝ) (h0 : 0 < p1) (h12 : p1 ≤ p2)
    (h1 : p2 < 1) {e1 z1 e2 z2 : ℝ}
    (hs1 : percentileToElevationFeet p1 STD_DEVS = some (e1, z1))
    (hs2 : percentileToElevationFeet p2 STD_DEVS = some (e2, z2)) :
    LOWEST_ELEVATION_LIMIT = -16404 ∧ HIGHEST_ELEVATION_LIMIT = 48685 ∧
    (LOWEST_ELEVATION_LIMIT ≤ e1 ∧ e1 ≤ HIGHEST_ELEVATION_LIMIT) ∧
    (LOWEST_ELEVATION_LIMIT ≤ e2 ∧ e2 ≤ HIGHEST_ELEVATION_LIMIT) ∧
    e1 ≤ e2 := by
  have q1 := percentile_some p1 STD_DEVS
  have q2 := percentile_some p2 STD_DEVS
  rw [hs1] at q1
  rw [hs2] at q2
  have he1 : e1 = (elevPair p1 STD_DEVS).1 := by
    rw [← Option.some.inj q1]
  have he2 : e2 = (elevPair p2 STD_DEVS).1 := by
    rw [← Option.some.inj q2]
  refine ⟨rfl, rfl, ?_, ?_, ?_⟩
  · rw [he1]
    exact elevPair_fst_mem p1 STD_DEVS
  · rw [he2]
    exact elevPair_fst_mem p2 STD_DEVS
  · rw [he1, he2]
    exact elevPair_fst_mono h12

/-- Witness for C1 at the concrete percentiles `p1 = 1/4`, `p2 = 1/2`. -/
theorem C1_elevation_range_mono_witness :
    (0 : ℝ) < 1/4 ∧ (1/4 : ℝ) ≤ 1/2 ∧ (1/2 : ℝ) < 1 ∧
    (LOWEST_ELEVATION_LIMIT = -16404 ∧ HIGHEST_ELEVATION_LIMIT = 48685 ∧
     (LOWEST_ELEVATION_LIMIT ≤ (elevPair (1/4) STD_DEVS).1 ∧
      (elevPair (1/4) STD_DEVS).1 ≤ HIGHEST_ELEVATION_LIMIT) ∧
     (LOWEST_ELEVATION_LIMIT ≤ (elevPair (1/2) STD_DEVS).1 ∧
      (elevPair (1/2) STD_DEVS).1 ≤ HIGHEST_ELEVATION_LIMIT) ∧
     (elevPair (1/4) STD_DEVS).1 ≤ (elevPair (1/2) STD_DEVS).1) :=
  ⟨by norm_num, by norm_num, by norm_num,
   C1_elevation_range_mono (1/4) (1/2) (by norm_num) (by norm_num) (by norm_num)
     (percentile_some (1/4) STD_DEVS) (percentile_some (1/2) STD_DEVS)⟩

end TerraformWebGPU
